import Mathlib

/-!
Verification of the cross-domain correlation and heuristic-insight engine of
`Substanten.py` (class `KITherapeutAnalyzer`, lines 1462-2119).

The embedding follows the Python source closely:

* Calendar dates are modelled as integers (`Int`); the source merges per-day
  records by `str(date)`, and `str` is injective on dates, so merging by the
  string key is merging by the date itself.
* Numeric cell values are exact rationals (`ℚ`).  The only irrational values
  the engine produces are square roots (standard deviations and Pearson
  coefficients); for these the embedding stores the exact variance and takes
  `Real.sqrt` at the point of use, so every float expression of the source is
  represented by the exact real number it approximates.
* Missing cells of the combined DataFrame (keys a per-day dict never set) are
  `Option.none`; the engine's `fillna(0)` step is the `.getD 0` in the
  `...F` ("filled") accessors below.
* `float('nan')` outcomes (pandas `std`/`corr` on degenerate input) are
  modelled as `Option.none` or by explicit predicates, never as the number 0.
-/

namespace Substanz

/-- Sleep-stage label resolved by `load_health_data` (lines 1545-1556); the
`sleep_type` variable is always overwritten before use, so `unknown` never
survives and is not modelled. -/
inductive SleepType
  | deep
  | light
  | rem
  | wake
  | total
deriving DecidableEq, Repr

/-- One normalized sleep observation (an element of `sleep_data`). -/
structure SleepObs where
  date : Int
  hour : Nat
  stype : SleepType
  minutes : ℚ
deriving DecidableEq, Repr

/-- One normalized heart-rate observation (an element of `heart_rate_data`). -/
structure HrObs where
  date : Int
  hour : Nat
  bpm : ℚ
deriving DecidableEq, Repr

/-- One normalized consumption observation (an element of `consumption_data`,
built in `load_consumption_data` lines 1501-1513; the constant `amount = 1`
field is not modelled). -/
structure ConsObs where
  date : Int
  hour : Nat
  substance : String
  dosage : String
  rating : ℚ
  cost : ℚ
  mood : String
  setting : String
  experience : String
deriving DecidableEq, Repr

/-- Mean of a pandas Series of rationals (`Series.mean` = sum / length).
On the empty list this yields `0/0 = 0`; every use site either guards for
non-emptiness or matches the source's NaN-propagation as noted there. -/
def colMean (l : List ℚ) : ℚ := l.sum / (l.length : ℚ)

/-- Sample variance matching pandas `Series.std()` (ddof = 1) squared.
pandas returns NaN for fewer than two values, modelled as `none`.
The source stores the standard deviation `√variance`; the embedding stores
the exact variance and applies `Real.sqrt` where the value is used. -/
def sampleVar (l : List ℚ) : Option ℚ :=
  if 2 ≤ l.length then
    some ((l.map (fun x => (x - colMean l) ^ 2)).sum / ((l.length : ℚ) - 1))
  else none

/-- Maximum of a nonempty rational list (pandas `Series.max`); 0 on `[]`
(never reached: groups are nonempty). -/
def listMax : List ℚ → ℚ
  | [] => 0
  | x :: xs => xs.foldl max x

/-- Minimum of a nonempty rational list (pandas `Series.min`); 0 on `[]`
(never reached: groups are nonempty). -/
def listMin : List ℚ → ℚ
  | [] => 0
  | x :: xs => xs.foldl min x

/-- Distinct elements keeping first occurrences, as pandas
`Series.unique().tolist()` does (`List.dedup` keeps last occurrences). -/
def firstDedup (l : List String) : List String := l.reverse.dedup.reverse

/-- Per-day sleep aggregate: the five stage totals of lines 1605-1609. -/
structure SleepAgg where
  total : ℚ
  deep : ℚ
  light : ℚ
  rem : ℚ
  wake : ℚ
deriving DecidableEq, Repr

/-- Per-day heart-rate aggregate of lines 1624-1628 / 1634-1638.
`variance` is the square of the stored `heart_rate_std` (see `sampleVar`). -/
structure HrAgg where
  avg : ℚ
  hi : ℚ
  lo : ℚ
  variance : Option ℚ
  entries : Nat
deriving DecidableEq, Repr

/-- Per-day consumption aggregate of lines 1652-1670.  `evening` holds the
`evening_substances` / `evening_consumption_count` pair; `none` when those
keys were never set on the day's record. -/
structure ConsAgg where
  substances : List String
  count : Nat
  avgRating : ℚ
  totalCost : ℚ
  evening : Option (List String × Nat)
deriving DecidableEq, Repr

/-- One row of the combined daily DataFrame.  A domain's aggregate is `some`
exactly when that domain contributed to the date (equivalently, when the
row's `has_..._data` flag is True and the domain's keys are present). -/
structure Row where
  date : Int
  sleep : Option SleepAgg
  hr : Option HrAgg
  cons : Option ConsAgg
deriving DecidableEq, Repr

/-- Sum of the minutes of one sleep stage within a day group (line 1605 ff.). -/
def sleepSum (g : List SleepObs) (ty : SleepType) : ℚ :=
  ((g.filter (fun o => o.stype == ty)).map SleepObs.minutes).sum

/-- Sleep aggregate of one day group. -/
def sleepAggOf (g : List SleepObs) : SleepAgg :=
  ⟨sleepSum g .total, sleepSum g .deep, sleepSum g .light, sleepSum g .rem, sleepSum g .wake⟩

/-- Heart-rate aggregate of one day group (mean/max/min/std/count). -/
def hrAggOf (g : List HrObs) : HrAgg :=
  let bpms := g.map HrObs.bpm
  ⟨colMean bpms, listMax bpms, listMin bpms, sampleVar bpms, g.length⟩

/-- Observations of a consumption day group falling in the evening window,
`datetime.dt.hour >= 18 and <= 24` (lines 1664-1667). -/
def eveningWindow (g : List ConsObs) : List ConsObs :=
  g.filter (fun o => 18 ≤ o.hour && o.hour ≤ 24)

/-- Evening fields set on an existing record (lines 1668-1670): present only
when the evening subset is nonempty. -/
def eveningInfo (g : List ConsObs) : Option (List String × Nat) :=
  let ev := eveningWindow g
  if ev.isEmpty then none
  else some (firstDedup (ev.map ConsObs.substance), ev.length)

/-- Consumption aggregate of one day group (substances/count/rating/cost);
the evening pair is supplied by the caller because the two branches of the
source differ on it. -/
def consAggOf (g : List ConsObs) (evening : Option (List String × Nat)) : ConsAgg :=
  ⟨firstDedup (g.map ConsObs.substance), g.length, colMean (g.map ConsObs.rating),
    (g.map ConsObs.cost).sum, evening⟩

/-- Distinct dates of a series, ascending: pandas `groupby` iterates its
group keys sorted ascending. -/
def obsDates (ds : List Int) : List Int := List.insertionSort (· ≤ ·) ds.dedup

/-- Day group of a series at date `d` (rows keep their original order). -/
def sleepGroup (sObs : List SleepObs) (d : Int) : List SleepObs :=
  sObs.filter (fun o => o.date == d)

/-- Day group of the heart-rate series at date `d`. -/
def hrGroup (hObs : List HrObs) (d : Int) : List HrObs :=
  hObs.filter (fun o => o.date == d)

/-- Day group of the consumption series at date `d`. -/
def consGroup (cObs : List ConsObs) (d : Int) : List ConsObs :=
  cObs.filter (fun o => o.date == d)

/-- Record created by the sleep loop (lines 1602-1612). -/
def sleepRowOf (sObs : List SleepObs) (d : Int) : Row :=
  ⟨d, some (sleepAggOf (sleepGroup sObs d)), none, none⟩

/-- Update of an existing record by the heart-rate loop (lines 1623-1629). -/
def hrUpd (hObs : List HrObs) (d : Int) (r : Row) : Row :=
  { r with hr := some (hrAggOf (hrGroup hObs d)) }

/-- Record created by the heart-rate loop for a fresh date (lines 1631-1642):
`has_sleep_data` is set to False and no sleep keys exist. -/
def hrNewRow (hObs : List HrObs) (d : Int) : Row :=
  ⟨d, none, some (hrAggOf (hrGroup hObs d)), none⟩

/-- Update of an existing record by the consumption loop (lines 1656-1670):
this branch also computes the evening subset. -/
def consUpd (cObs : List ConsObs) (d : Int) (r : Row) : Row :=
  let g := consGroup cObs d
  { r with cons := some (consAggOf g (eveningInfo g)) }

/-- Record created by the consumption loop for a fresh date (lines 1671-1683):
note that this branch does not compute the evening subset. -/
def consNewRow (cObs : List ConsObs) (d : Int) : Row :=
  ⟨d, none, none, some (consAggOf (consGroup cObs d) none)⟩

/-- The find-or-create step shared by the heart-rate and consumption loops:
`next((r for r in combined_records if r['date_str'] == str(date)), None)`
followed by either an in-place update or an append. -/
def mergeInto (d : Int) (upd : Row → Row) (mk : Row) (recs : List Row) : List Row :=
  if recs.any (fun r => r.date == d) then
    recs.map (fun r => if r.date == d then upd r else r)
  else recs ++ [mk]

/-- State of `combined_records` after the sleep loop (lines 1597-1612). -/
def combineRecs1 (sObs : List SleepObs) : List Row :=
  (obsDates (sObs.map SleepObs.date)).map (sleepRowOf sObs)

/-- State of `combined_records` after the heart-rate loop (lines 1614-1642). -/
def combineRecs2 (sObs : List SleepObs) (hObs : List HrObs) : List Row :=
  (obsDates (hObs.map HrObs.date)).foldl
    (fun recs d => mergeInto d (hrUpd hObs d) (hrNewRow hObs d) recs) (combineRecs1 sObs)

/-- State of `combined_records` after the consumption loop (lines 1644-1683). -/
def combineRecs3 (sObs : List SleepObs) (hObs : List HrObs) (cObs : List ConsObs) : List Row :=
  (obsDates (cObs.map ConsObs.date)).foldl
    (fun recs d => mergeInto d (consUpd cObs d) (consNewRow cObs d) recs)
    (combineRecs2 sObs hObs)

/-- `KITherapeutAnalyzer.combine_data` (lines 1591-1700) as a function of the
three loaded series.  The source reads the series from `self.data` and skips
a domain that is `None` or empty; an empty list contributes no groups, so
passing `[]` for an absent domain is equivalent.  The final
`df.sort_values('date')` is the insertion sort.  The `fillna(0)` step
(lines 1689-1696) is deferred to the `...F` accessors, which is observably
identical because every later read of a numeric cell goes through them. -/
def combineData (sObs : List SleepObs) (hObs : List HrObs) (cObs : List ConsObs) : List Row :=
  List.insertionSort (fun a b => a.date ≤ b.date) (combineRecs3 sObs hObs cObs)

/-- Filled `total_sleep_min` cell: a row without sleep keys holds NaN there,
turned into 0 by `fillna(0)` (lines 1689-1696). -/
def Row.totalSleepF (r : Row) : ℚ := (r.sleep.map SleepAgg.total).getD 0

/-- Filled `deep_sleep_min` cell. -/
def Row.deepSleepF (r : Row) : ℚ := (r.sleep.map SleepAgg.deep).getD 0

/-- Filled `light_sleep_min` cell. -/
def Row.lightSleepF (r : Row) : ℚ := (r.sleep.map SleepAgg.light).getD 0

/-- Filled `rem_sleep_min` cell. -/
def Row.remSleepF (r : Row) : ℚ := (r.sleep.map SleepAgg.rem).getD 0

/-- Filled `wake_min` cell. -/
def Row.wakeF (r : Row) : ℚ := (r.sleep.map SleepAgg.wake).getD 0

/-- Filled `avg_heart_rate` cell. -/
def Row.avgHeartRateF (r : Row) : ℚ := (r.hr.map HrAgg.avg).getD 0

/-- Square of the filled `heart_rate_std` cell: a missing cell or a NaN
standard deviation (single-sample day) is filled to 0, and `0 = √0`. -/
def Row.hrVarF (r : Row) : ℚ := (r.hr.bind HrAgg.variance).getD 0

/-- Filled `avg_consumption_rating` cell. -/
def Row.avgRatingF (r : Row) : ℚ := (r.cons.map ConsAgg.avgRating).getD 0

/-- Filled `total_daily_cost` cell. -/
def Row.totalCostF (r : Row) : ℚ := (r.cons.map ConsAgg.totalCost).getD 0

/-- Derived `sleep_efficiency` column (lines 1715-1721):
`np.where(total_bed_time > 0, total/bed*100, 0)` over the filled cells. -/
def Row.sleepEfficiencyF (r : Row) : ℚ :=
  let bed := r.totalSleepF + r.wakeF
  if 0 < bed then r.totalSleepF / bed * 100 else 0

/-- The `consumption_count` cell.  This column is not in the `fillna(0)` list
(lines 1689-1692), so days without consumption keep NaN there, modelled as
`none`; pandas `mean` skips NaN cells. -/
def Row.consCountN (r : Row) : Option ℚ := r.cons.map (fun c => (c.count : ℚ))

/-- The `substances_today` cell as read by line 1770-1772: rows without the
key hold NaN, for which `isinstance(x, list)` is false, i.e. the empty list. -/
def Row.substancesToday (r : Row) : List String := (r.cons.map ConsAgg.substances).getD []

/-- Presence of the sleep columns in the combined DataFrame: a DataFrame
built from a list of dicts has a column iff some dict set the key. -/
def sleepColExists (t : List Row) : Bool := t.any (fun r => r.sleep.isSome)

/-- Presence of the heart-rate columns. -/
def hrColExists (t : List Row) : Bool := t.any (fun r => r.hr.isSome)

/-- Presence of the consumption columns. -/
def consColExists (t : List Row) : Bool := t.any (fun r => r.cons.isSome)

/-- The candidate correlation columns of lines 1732-1734, in source order. -/
inductive Metric
  | totalSleepMin
  | deepSleepMin
  | lightSleepMin
  | remSleepMin
  | sleepEfficiency
  | avgHeartRate
  | hrvProxy
  | avgConsumptionRating
  | totalDailyCost
deriving DecidableEq, Repr

/-- The candidate list of line 1732, in source order. -/
def candidateMetrics : List Metric :=
  [.totalSleepMin, .deepSleepMin, .lightSleepMin, .remSleepMin, .sleepEfficiency,
   .avgHeartRate, .hrvProxy, .avgConsumptionRating, .totalDailyCost]

/-- Value of a candidate column in a row, as the real number the stored float
approximates.  All columns except `hrv_proxy` hold rationals; `hrv_proxy`
aliases `heart_rate_std = √variance` (line 1724-1725). -/
noncomputable def metricValueR : Metric → Row → ℝ
  | .totalSleepMin, r => (r.totalSleepF : ℝ)
  | .deepSleepMin, r => (r.deepSleepF : ℝ)
  | .lightSleepMin, r => (r.lightSleepF : ℝ)
  | .remSleepMin, r => (r.remSleepF : ℝ)
  | .sleepEfficiency, r => (r.sleepEfficiencyF : ℝ)
  | .avgHeartRate, r => (r.avgHeartRateF : ℝ)
  | .hrvProxy, r => Real.sqrt (r.hrVarF : ℝ)
  | .avgConsumptionRating, r => (r.avgRatingF : ℝ)
  | .totalDailyCost, r => (r.totalCostF : ℝ)

/-- Existence of a candidate column (`col in df.columns`, line 1735):
`sleep_efficiency` is created iff the sleep columns exist (line 1715), and
`hrv_proxy` iff `heart_rate_std` exists (line 1724). -/
def metricColExists (t : List Row) : Metric → Bool
  | .totalSleepMin | .deepSleepMin | .lightSleepMin | .remSleepMin | .sleepEfficiency =>
      sleepColExists t
  | .avgHeartRate | .hrvProxy => hrColExists t
  | .avgConsumptionRating | .totalDailyCost => consColExists t

/-- `len(df[col].unique()) > 1` (line 1735).  After `fillna(0)` the column has
no NaN cells, so this says the column takes two distinct values. -/
def hasTwoDistinct (t : List Row) (m : Metric) : Prop :=
  ∃ r1 ∈ t, ∃ r2 ∈ t, metricValueR m r1 ≠ metricValueR m r2

/-- Eligibility test of line 1735: `col in df.columns and df[col].notna().any()
and len(df[col].unique()) > 1`.  Existing candidate columns are NaN-free
after `fillna(0)`, so `notna().any()` is exactly non-emptiness of the table. -/
def eligibleMetric (t : List Row) (m : Metric) : Prop :=
  metricColExists t m = true ∧ t ≠ [] ∧ hasTwoDistinct t m

open Classical in
/-- The `numeric_cols` list of lines 1731-1736 (candidate order preserved). -/
noncomputable def numericColsOf (t : List Row) : List Metric :=
  candidateMetrics.filter (fun m => decide (eligibleMetric t m))

/-- Enumeration `for i, col1 in enumerate(cols): for col2 in cols[i+1:]`
(lines 1739-1740): each unordered pair once, first component earlier. -/
def pairsOf {α : Type} : List α → List (α × α)
  | [] => []
  | a :: rest => rest.map (fun b => (a, b)) ++ pairsOf rest

/-- Mean of a list of reals. -/
noncomputable def meanR (l : List ℝ) : ℝ := l.sum / (l.length : ℝ)

/-- Centered cross-product sum Σ (x - x̄)(y - ȳ) of a paired sample. -/
noncomputable def devProdSum (ps : List (ℝ × ℝ)) : ℝ :=
  (ps.map (fun p => (p.1 - meanR (ps.map Prod.fst)) * (p.2 - meanR (ps.map Prod.snd)))).sum

/-- Centered square sum Σ (x - x̄)² of the first coordinates. -/
noncomputable def devSqFst (ps : List (ℝ × ℝ)) : ℝ :=
  (ps.map (fun p => (p.1 - meanR (ps.map Prod.fst)) ^ 2)).sum

/-- Centered square sum Σ (y - ȳ)² of the second coordinates. -/
noncomputable def devSqSnd (ps : List (ℝ × ℝ)) : ℝ :=
  (ps.map (fun p => (p.2 - meanR (ps.map Prod.snd)) ^ 2)).sum

/-- Pearson coefficient computed by `valid_data[col1].corr(valid_data[col2])`
(line 1745): Σ(x-x̄)(y-ȳ) / √(Σ(x-x̄)² · Σ(y-ȳ)²). -/
noncomputable def pearson (ps : List (ℝ × ℝ)) : ℝ :=
  devProdSum ps / Real.sqrt (devSqFst ps * devSqSnd ps)

/-- The float `corr` is NaN exactly when a sample standard deviation is zero
(then the quotient is 0/0); `pd.isna(corr)` at line 1747 tests this. -/
def pearsonUndef (ps : List (ℝ × ℝ)) : Prop := devSqFst ps = 0 ∨ devSqSnd ps = 0

/-- The paired sample `df[[col1, col2]].dropna()` (line 1741).  Existing
candidate columns are NaN-free after `fillna(0)`, so `dropna` keeps every
row of the table. -/
noncomputable def colPairs (t : List Row) (m1 m2 : Metric) : List (ℝ × ℝ) :=
  t.map (fun r => (metricValueR m1 r, metricValueR m2 r))

/-- One retained correlation record (lines 1748-1752). -/
structure CorrRecord where
  m1 : Metric
  m2 : Metric
  corr : ℝ
  n : Nat

open Classical in
/-- Loop body of lines 1741-1752 for one enumerated pair: require at least 3
paired rows, compute the coefficient, and keep it iff it is not NaN and
`abs(corr) > 0.3`. -/
noncomputable def corrRecordOf (t : List Row) (m1 m2 : Metric) : Option CorrRecord :=
  let ps := colPairs t m1 m2
  if 3 ≤ ps.length then
    if ¬ pearsonUndef ps ∧ 3 / 10 < |pearson ps| then
      some ⟨m1, m2, pearson ps, ps.length⟩
    else none
  else none

/-- The `correlations` collection of lines 1739-1754. -/
noncomputable def corrRecords (t : List Row) : List CorrRecord :=
  (pairsOf (numericColsOf t)).filterMap (fun pq => corrRecordOf t pq.1 pq.2)

/-- The distinct substances of lines 1759-1766: all `substances_today` lists
concatenated, then `list(set(...))`.  Python's set iteration order is
unspecified; the embedding keeps one canonical order, which no claim and no
downstream set-level result depends on. -/
def uniqueSubstancesOf (t : List Row) : List String :=
  ((t.map Row.substancesToday).flatten).dedup

/-- Percent difference of the substance-effect comparison (line 1782):
`((with_substance - without_substance) / without_substance) * 100`. -/
def percentDiff (withMean withoutMean : ℚ) : ℚ :=
  (withMean - withoutMean) / withoutMean * 100

/-- One retained substance-effect record (lines 1784-1789). -/
structure SubstEffect where
  substance : String
  metric : Metric
  withMean : ℚ
  withoutMean : ℚ
  diffPercent : ℚ
deriving DecidableEq, Repr

/-- The effect-metric loop of line 1776 filtered by `metric in df.columns`
(line 1777), in source order.  `sleep_efficiency` exists iff the sleep
columns do, so one gate covers both sleep metrics. -/
def effectColumns (t : List Row) : List (Metric × (Row → ℚ)) :=
  (if hrColExists t then [(Metric.avgHeartRate, Row.avgHeartRateF)] else []) ++
  (if sleepColExists t then
    [(Metric.totalSleepMin, Row.totalSleepF), (Metric.sleepEfficiency, Row.sleepEfficiencyF)]
   else [])

/-- The `substance_correlations` collection of lines 1756-1789: per substance,
partition the days by use, and per existing effect metric with both partition
means positive, record the percent difference. -/
def substanceEffectsOf (t : List Row) : List SubstEffect :=
  (uniqueSubstancesOf t).flatMap (fun s =>
    let used := t.filter (fun r => r.substancesToday.contains s)
    let notUsed := t.filter (fun r => !(r.substancesToday.contains s))
    if !used.isEmpty && !notUsed.isEmpty then
      (effectColumns t).filterMap (fun mv =>
        let w := colMean (used.map mv.2)
        let wo := colMean (notUsed.map mv.2)
        if 0 < w ∧ 0 < wo then some ⟨s, mv.1, w, wo, percentDiff w wo⟩ else none)
    else [])

/-- The success payload of `perform_correlation_analysis` (lines 1791-1805).
The interpretation strings attached to the records are fixed lookups of the
numeric fields (lines 1809-1861) and are not separately modelled. -/
structure CorrOutput where
  totalDays : Nat
  numericCols : List Metric
  correlations : List CorrRecord
  substanceEffects : List SubstEffect
  daysWithSleep : Nat
  daysWithHr : Nat
  daysWithCons : Nat
  uniqueSubstanceCount : Nat

/-- `KITherapeutAnalyzer.perform_correlation_analysis` (lines 1707-1807) on a
non-empty combined table.  The `has_..._data` column sums skip rows where the
flag key was never set, so they count the rows whose domain is present. -/
noncomputable def performCorrelationAnalysis (t : List Row) : CorrOutput :=
  { totalDays := t.length
    numericCols := numericColsOf t
    correlations := corrRecords t
    substanceEffects := substanceEffectsOf t
    daysWithSleep := t.countP (fun r => r.sleep.isSome)
    daysWithHr := t.countP (fun r => r.hr.isSome)
    daysWithCons := t.countP (fun r => r.cons.isSome)
    uniqueSubstanceCount := if consColExists t then (uniqueSubstancesOf t).length else 0 }

/-- The `avg_heart_rate` column as a list (for the anomaly step). -/
def hrColumn (t : List Row) : List ℚ := t.map Row.avgHeartRateF

/-- Anomaly test of line 1889: `abs(row['avg_heart_rate'] - mean_hr) > 2 * std_hr`
with `std_hr = √v` the column's sample standard deviation. -/
def anomalous (mean v x : ℚ) : Prop :=
  2 * Real.sqrt (v : ℝ) < |(x : ℝ) - (mean : ℝ)|

/-- The 2-standard-deviation test in squared, rational form. -/
theorem anomalous_iff_of_nonneg (mean v x : ℚ) (hv : 0 ≤ v) :
    anomalous mean v x ↔ 4 * v < (x - mean) ^ 2 := by
  unfold anomalous
  have hvR : (0 : ℝ) ≤ (v : ℝ) := by exact_mod_cast hv
  have h1 : 2 * Real.sqrt (v : ℝ) = Real.sqrt (4 * (v : ℝ)) := by
    rw [Real.sqrt_mul (by norm_num : (0 : ℝ) ≤ 4) (v : ℝ),
      show Real.sqrt 4 = 2 by
        rw [show (4 : ℝ) = 2 ^ 2 by norm_num, Real.sqrt_sq (by norm_num : (0 : ℝ) ≤ 2)]]
  have h2 : |(x : ℝ) - (mean : ℝ)| = Real.sqrt (((x : ℝ) - (mean : ℝ)) ^ 2) :=
    (Real.sqrt_sq_eq_abs _).symm
  rw [h1, h2, Real.sqrt_lt_sqrt_iff (by nlinarith : (0 : ℝ) ≤ 4 * (v : ℝ))]
  constructor
  · intro h; exact_mod_cast h
  · intro h; exact_mod_cast h

/-- Degenerate case: a nonpositive variance never occurs, but the test is
still decidable there (`√v = 0`). -/
theorem anomalous_iff_of_neg (mean v x : ℚ) (hv : v < 0) :
    anomalous mean v x ↔ ¬ x = mean := by
  unfold anomalous
  have h0 : Real.sqrt (v : ℝ) = 0 :=
    Real.sqrt_eq_zero'.mpr (le_of_lt (by exact_mod_cast hv))
  rw [h0]
  simp only [mul_zero, abs_pos, sub_ne_zero]
  constructor
  · intro h hx; exact h (by exact_mod_cast hx)
  · intro h; exact fun hx => h (by exact_mod_cast hx)

instance anomalousDecidable (mean v x : ℚ) : Decidable (anomalous mean v x) :=
  if hv : 0 ≤ v then
    decidable_of_iff (4 * v < (x - mean) ^ 2) (anomalous_iff_of_nonneg mean v x hv).symm
  else
    decidable_of_iff (¬ x = mean) (anomalous_iff_of_neg mean v x (lt_of_not_le hv)).symm

/-- The anomaly rows of lines 1880-1891: when the `avg_heart_rate` column
exists and its sample standard deviation is positive (`NaN > 0` and `0 > 0`
are both false in Python, covering the `none` and zero-variance cases), keep
the rows deviating from the column mean by more than two standard
deviations. -/
def anomalyRows (t : List Row) : List Row :=
  if hrColExists t then
    match sampleVar (hrColumn t) with
    | some v =>
      if 0 < v then
        t.filter (fun r => decide (anomalous (colMean (hrColumn t)) v r.avgHeartRateF))
      else []
    | none => []
  else []

/-- Mean of the `consumption_count` column (line 1947): the column is not
zero-filled, so pandas averages over the days that have consumption data. -/
def consCountMean (t : List Row) : ℚ := colMean (t.filterMap Row.consCountN)

/-- One entry of the `_generate_simple_recommendations` output
(lines 1927-1951).  The source renders each as an f-string embedding the
triggering mean; the embedding stores that mean as the payload. -/
inductive Advice
  | increaseSleep (avgSleepMin : ℚ)
  | excessiveSleep (avgSleepMin : ℚ)
  | lowerHeartRate (avgBpm : ℚ)
  | reduceFrequency (avgCount : ℚ)
  | noSpecific
deriving DecidableEq, Repr

/-- `KITherapeutAnalyzer._generate_simple_recommendations` (lines 1927-1951). -/
def generateSimpleRecommendations (t : List Row) : List Advice :=
  let sleepAdv : List Advice :=
    if sleepColExists t then
      let a := colMean (t.map Row.totalSleepF)
      if a < 360 then [.increaseSleep a]
      else if 540 < a then [.excessiveSleep a]
      else []
    else []
  let hrAdv : List Advice :=
    if hrColExists t then
      let a := colMean (t.map Row.avgHeartRateF)
      if 80 < a then [.lowerHeartRate a] else []
    else []
  let consAdv : List Advice :=
    if consColExists t then
      let a := consCountMean t
      if 1 < a then [.reduceFrequency a] else []
    else []
  let advs := sleepAdv ++ hrAdv ++ consAdv
  if advs.isEmpty then [.noSpecific] else advs

/-- One entry of the `_identify_simple_patterns` output (lines 1897-1925). -/
inductive PatternOut
  | weekdayTop (weekday : Int) (meanCount : ℚ)
  | sleepLowersHr
  | noneClear
deriving DecidableEq, Repr

/-- Weekday key of a date.  The source groups by `day_name()` strings (keys
then sorted alphabetically); the embedding groups by the residue `date % 7`
sorted numerically.  The correspondence is a fixed bijection on keys; only
the tie-break of `idxmax` between equal means depends on the key order, a
detail no claim touches. -/
def weekdayOf (d : Int) : Int := d % 7

/-- Per-weekday mean of `consumption_count` (line 1906); a weekday group with
no consumption rows averages to NaN (`none`). -/
def weekdayGroups (t : List Row) : List (Int × Option ℚ) :=
  (obsDates (t.map (fun r => weekdayOf r.date))).map (fun w =>
    (w,
      let vals := (t.filter (fun r => weekdayOf r.date == w)).filterMap Row.consCountN
      if vals.isEmpty then none else some (colMean vals)))

/-- `Series.idxmax` over an Option-valued association list: first key
attaining the maximal non-NaN value. -/
def idxmaxFirst (l : List (Int × Option ℚ)) : Option (Int × ℚ) :=
  l.foldl (fun acc wv =>
    match wv.2 with
    | none => acc
    | some v =>
      match acc with
      | none => some (wv.1, v)
      | some best => if best.2 < v then some (wv.1, v) else acc) none

/-- `KITherapeutAnalyzer._identify_simple_patterns` (lines 1897-1925). -/
def identifySimplePatterns (t : List Row) : List PatternOut :=
  let wk : List PatternOut :=
    if consColExists t then
      match idxmaxFirst (weekdayGroups t) with
      | some wv => [.weekdayTop wv.1 wv.2]
      | none => []
    else []
  let shr : List PatternOut :=
    if sleepColExists t && hrColExists t then
      let avgS := colMean (t.map Row.totalSleepF)
      let above := t.filter (fun r => decide (avgS < r.totalSleepF))
      let below := t.filter (fun r => decide (r.totalSleepF ≤ avgS))
      if !above.isEmpty && !below.isEmpty then
        if colMean (above.map Row.avgHeartRateF) < colMean (below.map Row.avgHeartRateF) then
          [.sleepLowersHr]
        else []
      else []
    else []
  let ps := wk ++ shr
  if ps.isEmpty then [.noneClear] else ps

/-- The success payload of `perform_machine_learning_analysis`
(lines 1863-1895). -/
structure MlResults where
  totalDays : Nat
  anomalyDays : Nat
  anomalyPct : ℚ
  clusters : Nat
  patterns : List PatternOut
  recommendations : List Advice
deriving DecidableEq, Repr

/-- `KITherapeutAnalyzer.perform_machine_learning_analysis`
(lines 1863-1895); `none` is the `"status": "no_data"` early return. -/
def performMachineLearningAnalysis (t : List Row) : Option MlResults :=
  if t.isEmpty then none
  else some
    { totalDays := t.length
      anomalyDays := (anomalyRows t).length
      anomalyPct :=
        if 0 < t.length then ((anomalyRows t).length : ℚ) / (t.length : ℚ) * 100 else 0
      clusters := 1
      patterns := identifySimplePatterns t
      recommendations := generateSimpleRecommendations t }

/-- One raw entry dict passed to `load_consumption_data` (lines 1484-1522).
A `none` date models an unparsable date/time pair (`pd.NaT`); a `none` in
any other field models an absent key, resolved by the `entry.get` default. -/
structure RawEntry where
  date : Option Int
  hour : Nat
  substance : Option String
  dosage : Option String
  rating : Option ℚ
  cost : Option ℚ
  mood : Option String
  setting : Option String
  experience : Option String
deriving DecidableEq, Repr

/-- The per-entry body of `load_consumption_data` (lines 1490-1515): skip on
unparsable timestamp, otherwise normalize with the documented defaults
(`substance → 'Unbekannt'`, `rating → 0`, `cost → 0`, text fields → `''`). -/
def parseConsEntries (entries : List RawEntry) : List ConsObs :=
  entries.filterMap (fun e =>
    match e.date with
    | none => none
    | some d =>
      some ⟨d, e.hour, e.substance.getD "Unbekannt", e.dosage.getD "", e.rating.getD 0,
        e.cost.getD 0, e.mood.getD "", e.setting.getD "", e.experience.getD ""⟩)

/-- `df.sort_values('datetime')` on consumption observations (stable,
ascending by timestamp). -/
def sortConsByTime (l : List ConsObs) : List ConsObs :=
  List.insertionSort (fun a b => a.date < b.date ∨ (a.date = b.date ∧ a.hour ≤ b.hour)) l

/-- One raw health sample passed to `load_health_data` (lines 1524-1589).
A `none` value models a `value` entry on which `float(...)` raises (the
record is then skipped); a `none` date models an unparsable timestamp. -/
structure RawHealth where
  typeLabel : String
  value : Option ℚ
  date : Option Int
  hour : Nat
deriving DecidableEq, Repr

/-- Containment of one character list in another at any position. -/
def charsContain (l pat : List Char) : Bool :=
  match l with
  | [] => pat.isEmpty
  | _ :: tl => pat.isPrefixOf l || charsContain tl pat

/-- Substring test `word in label` on lowercased labels. -/
def labelHas (label word : String) : Bool := charsContain label.toList word.toList

/-- `any(word in label for word in words)`. -/
def labelHasAny (label : String) (words : List String) : Bool :=
  words.any (labelHas label)

/-- Keyword vocabulary classifying a sample as sleep (line 1545). -/
def sleepWords : List String := ["sleep", "schlaf", "deep", "shallow", "rem", "wake"]

/-- Keyword vocabulary classifying a sample as heart rate (line 1568). -/
def hrWords : List String := ["heart", "herz", "hr", "pulse", "puls"]

/-- Sleep-subtype cascade of lines 1546-1556 on a lowercased label. -/
def sleepTypeOf (label : String) : SleepType :=
  if labelHas label "deep" || labelHas label "tief" then .deep
  else if labelHas label "shallow" || labelHas label "leicht" then .light
  else if labelHas label "rem" then .rem
  else if labelHas label "wake" || labelHas label "wach" then .wake
  else .total

/-- Sleep branch of the `load_health_data` loop (lines 1532-1565). -/
def parseSleepSamples (health : List RawHealth) : List SleepObs :=
  health.filterMap (fun e =>
    let label := e.typeLabel.toLower
    match e.date, e.value with
    | some d, some v =>
      if labelHasAny label sleepWords then some ⟨d, e.hour, sleepTypeOf label, v⟩ else none
    | _, _ => none)

/-- Heart-rate branch (`elif`) of the `load_health_data` loop
(lines 1567-1576). -/
def parseHrSamples (health : List RawHealth) : List HrObs :=
  health.filterMap (fun e =>
    let label := e.typeLabel.toLower
    match e.date, e.value with
    | some d, some v =>
      if !labelHasAny label sleepWords && labelHasAny label hrWords then
        some ⟨d, e.hour, v⟩
      else none
    | _, _ => none)

/-- `df.sort_values('datetime')` on sleep observations. -/
def sortSleepByTime (l : List SleepObs) : List SleepObs :=
  List.insertionSort (fun a b => a.date < b.date ∨ (a.date = b.date ∧ a.hour ≤ b.hour)) l

/-- `df.sort_values('datetime')` on heart-rate observations. -/
def sortHrByTime (l : List HrObs) : List HrObs :=
  List.insertionSort (fun a b => a.date < b.date ∨ (a.date = b.date ∧ a.hour ≤ b.hour)) l

/-- The mutable `self.data` / `self.correlation_results` of the analyzer
object (lines 1463-1471); `none` is Python `None` (and `{}` for the
correlation results, which no reader distinguishes from absence). -/
structure AnalyzerState where
  sleepData : Option (List SleepObs)
  heartRateData : Option (List HrObs)
  consumptionData : Option (List ConsObs)
  combinedData : Option (List Row)
  correlationResults : Option CorrOutput

/-- Fresh analyzer (`__init__`). -/
def initState : AnalyzerState := ⟨none, none, none, none, none⟩

/-- Value `load_consumption_data` would store: `none` when the input list is
empty or no entry survives parsing (the method then returns `None` without
touching the state). -/
def consComputed (entries : List RawEntry) : Option (List ConsObs) :=
  if entries.isEmpty then none
  else
    let l := parseConsEntries entries
    if l.isEmpty then none else some (sortConsByTime l)

/-- `KITherapeutAnalyzer.load_consumption_data` (lines 1484-1522): state
transition plus return value. -/
def loadConsumptionData (st : AnalyzerState) (entries : List RawEntry) :
    AnalyzerState × Option (List ConsObs) :=
  match consComputed entries with
  | none => (st, none)
  | some l => ({ st with consumptionData := some l }, some l)

/-- Value `load_health_data` would store in `sleep_data`. -/
def sleepComputed (health : List RawHealth) : Option (List SleepObs) :=
  if health.isEmpty then none
  else
    let l := parseSleepSamples health
    if l.isEmpty then none else some (sortSleepByTime l)

/-- Value `load_health_data` would store in `heart_rate_data`. -/
def hrComputed (health : List RawHealth) : Option (List HrObs) :=
  if health.isEmpty then none
  else
    let l := parseHrSamples health
    if l.isEmpty then none else some (sortHrByTime l)

/-- `KITherapeutAnalyzer.load_health_data` (lines 1524-1589): each series is
stored only when nonempty, otherwise the previous value survives. -/
def loadHealthData (st : AnalyzerState) (health : List RawHealth) : AnalyzerState :=
  { st with
    sleepData := (sleepComputed health).orElse (fun _ => st.sleepData)
    heartRateData := (hrComputed health).orElse (fun _ => st.heartRateData) }

/-- Value `combine_data` would store: `none` when no domain contributed a
record (the method then returns `None` and leaves `combined_data` alone).
A domain that is `None` or empty contributes no groups, so reading it as
`[]` is equivalent. -/
def combineComputed (st : AnalyzerState) : Option (List Row) :=
  let rows := combineData (st.sleepData.getD []) (st.heartRateData.getD [])
    (st.consumptionData.getD [])
  if rows.isEmpty then none else some rows

/-- `KITherapeutAnalyzer.combine_data` as a state transition plus return
value (lines 1591-1705). -/
def combineDataStep (st : AnalyzerState) : AnalyzerState × Option (List Row) :=
  match combineComputed st with
  | none => (st, none)
  | some rows => ({ st with combinedData := some rows }, some rows)

/-- `KITherapeutAnalyzer.perform_correlation_analysis` as a state transition
plus return value; `none` is the `"status": "no_data"` early return
(lines 1709-1710), which does not update `self.correlation_results`. -/
noncomputable def corrStep (st : AnalyzerState) : AnalyzerState × Option CorrOutput :=
  match st.combinedData with
  | none => (st, none)
  | some t =>
    if t.isEmpty then (st, none)
    else
      ({ st with correlationResults := some (performCorrelationAnalysis t) },
        some (performCorrelationAnalysis t))

/-- `perform_machine_learning_analysis` reads `combined_data` from the state
(`none`/empty gives the `no_data` return). -/
def mlStep (st : AnalyzerState) : Option MlResults :=
  match st.combinedData with
  | none => none
  | some t => performMachineLearningAnalysis t

/-- Return values of one full analysis invocation. -/
structure RunOutputs where
  consRet : Option (List ConsObs)
  combineRet : Option (List Row)
  corrRet : Option CorrOutput
  mlRet : Option MlResults

/-- One invocation of the core pipeline in source order:
`load_consumption_data`, `load_health_data`, `combine_data`,
`perform_correlation_analysis`, `perform_machine_learning_analysis`. -/
noncomputable def runPipeline (st : AnalyzerState) (entries : List RawEntry)
    (health : List RawHealth) : AnalyzerState × RunOutputs :=
  let s1 := loadConsumptionData st entries
  let s2 := loadHealthData s1.1 health
  let s3 := combineDataStep s2
  let s4 := corrStep s3.1
  (s4.1, ⟨s1.2, s3.2, s4.2, mlStep s4.1⟩)

/-- The no-data message of line 1956. -/
def noDataMessage : String := "Keine ausreichenden Daten für eine Analyse verfügbar."

/-- Message of the `ValueError` pandas raises when a DataFrame is used in a
boolean context. -/
def truthValueError : String :=
  "The truth value of a DataFrame is ambiguous. Use a.empty, a.bool(), a.item(), a.any() or a.all()."

/-- Boolean coercion of a pandas DataFrame: `DataFrame.__bool__`
unconditionally raises `ValueError`, for empty and populated frames alike. -/
def dataFrameTruth (_t : List Row) : Except String Bool :=
  Except.error truthValueError

/-- Boolean coercion of `self.data['combined_data']`: Python `None` is falsy;
a DataFrame raises. -/
def combinedTruth : Option (List Row) → Except String Bool
  | none => Except.ok false
  | some t => dataFrameTruth t

/-- A separator line of the report. -/
def sepLine (c : Char) (n : Nat) : String := String.mk (List.replicate n c)

/-- Body of the report built by lines 1958-2060 once the guard has passed.
Rendering is abbreviated to the header, the data overview, the section
markers, and the fixed closing block; the guard of line 1955 raises before
this body can ever run, so no claim depends on its exact text. -/
def reportText (st : AnalyzerState) : String :=
  let t := st.combinedData.getD []
  String.intercalate "\n"
    ([sepLine '=' 70, "🧠 KI-THERAPEUT ANALYSEBERICHT", sepLine '=' 70, "",
      "📊 DATENÜBERSICHT:", sepLine '-' 40,
      "Analysierte Tage: " ++ toString t.length,
      "Tage mit Schlafdaten: " ++ toString (t.countP (fun r => r.sleep.isSome)),
      "Tage mit Pulsdaten: " ++ toString (t.countP (fun r => r.hr.isSome)),
      "Tage mit Konsumdaten: " ++ toString (t.countP (fun r => r.cons.isSome)), "",
      "🔄 NÄCHSTE SCHRITTE:", sepLine '-' 40,
      "1. Konsistente Datenerfassung fortsetzen",
      "2. Auffällige Muster im Auge behalten",
      "3. Bei Bedarf professionelle Hilfe suchen",
      "4. Regelmäßig analysieren und anpassen", "",
      sepLine '=' 70, "Ende des Berichts", sepLine '=' 70])

/-- `KITherapeutAnalyzer.generate_comprehensive_report` (lines 1953-2060).
The guard of line 1955 is `if not self.data['combined_data'] or
self.data['combined_data'].empty:` — `or` short-circuits, so the boolean
coercion of the slot is evaluated first: `None` is falsy and returns the
message; a DataFrame raises `ValueError` before anything else happens. -/
def generateComprehensiveReport (st : AnalyzerState) : Except String String :=
  match combinedTruth st.combinedData with
  | Except.error e => Except.error e
  | Except.ok truthy =>
    if !truthy then Except.ok noDataMessage
    else if (st.combinedData.getD []).isEmpty then Except.ok noDataMessage
    else Except.ok (reportText st)

/-! ## Claim C1 -/

/-- C1: the claim says `generate_comprehensive_report` returns a string for
every state of the combined data and never raises.  The code disagrees: the
guard coerces the slot to a boolean, which raises pandas' `ValueError`
whenever the slot holds a DataFrame — empty or populated — so the only state
that yields a string is the absent (`None`) one.  This theorem evaluates the
code on both kinds of state. -/
theorem c1_report_raises_on_dataframe :
    (∀ t : List Row,
      generateComprehensiveReport ⟨none, none, none, some t, none⟩ =
        Except.error truthValueError) ∧
    generateComprehensiveReport initState = Except.ok noDataMessage := by
  constructor
  · intro t
    rfl
  · rfl

/-! ## Claim C7 -/

/-- Two-day table for C7: day 0 used substance "S" (heart-rate mean 200),
day 1 did not (heart-rate mean 100). -/
def c7TableA : List Row :=
  [⟨0, none, some ⟨200, 200, 200, none, 1⟩, some ⟨["S"], 1, 0, 0, none⟩⟩,
   ⟨1, none, some ⟨100, 100, 100, none, 1⟩, none⟩]

/-- The same two days with the partitions swapped: now day 1 (heart-rate
mean 100) used "S" and day 0 did not. -/
def c7TableB : List Row :=
  [⟨0, none, some ⟨200, 200, 200, none, 1⟩, none⟩,
   ⟨1, none, some ⟨100, 100, 100, none, 1⟩, some ⟨["S"], 1, 0, 0, none⟩⟩]

/-- C7 counterexample: swapping which partition is "with" does not negate the
percent difference.  With means 200 vs 100 the engine reports +100%; with the
partitions swapped it reports −50%, and −50 ≠ −100. -/
theorem c7_counterexample :
    substanceEffectsOf c7TableA =
      [⟨"S", Metric.avgHeartRate, 200, 100, 100⟩] ∧
    substanceEffectsOf c7TableB =
      [⟨"S", Metric.avgHeartRate, 100, 200, -50⟩] ∧
    ((-50 : ℚ) ≠ -(100 : ℚ)) := by
  refine ⟨?_, ?_, by norm_num⟩ <;>
    norm_num [substanceEffectsOf, c7TableA, c7TableB, uniqueSubstancesOf,
      Row.substancesToday, effectColumns, hrColExists, sleepColExists, colMean,
      percentDiff, Row.avgHeartRateF, List.dedup_cons_of_not_mem, List.filter,
      List.flatMap, List.filterMap_cons]

/-- C7 amended: for positive partition means, swapping which partition is
treated as "with" negates the *sign* of the percent difference
`(withMean - withoutMean) / withoutMean * 100`, though in general not its
magnitude. -/
theorem c7_percent_diff_sign_antisymmetric (a b : ℚ) (ha : 0 < a) (hb : 0 < b) :
    (0 < percentDiff a b ↔ percentDiff b a < 0) ∧
    (percentDiff a b = 0 ↔ percentDiff b a = 0) ∧
    (percentDiff a b < 0 ↔ 0 < percentDiff b a) := by
  have key : ∀ x y : ℚ, 0 < y → (0 < percentDiff x y ↔ y < x) := by
    intro x y hy
    unfold percentDiff
    rw [div_mul_eq_mul_div, lt_div_iff₀ hy]
    constructor
    · intro h; nlinarith
    · intro h; nlinarith
  have keyneg : ∀ x y : ℚ, 0 < y → (percentDiff x y < 0 ↔ x < y) := by
    intro x y hy
    unfold percentDiff
    rw [div_mul_eq_mul_div, div_lt_iff₀ hy]
    constructor
    · intro h; nlinarith
    · intro h; nlinarith
  have keyzero : ∀ x y : ℚ, 0 < y → (percentDiff x y = 0 ↔ x = y) := by
    intro x y hy
    unfold percentDiff
    rw [div_mul_eq_mul_div, div_eq_iff (ne_of_gt hy)]
    constructor
    · intro h; nlinarith
    · intro h; nlinarith
  refine ⟨?_, ?_, ?_⟩
  · rw [key a b hb, keyneg b a ha]
  · rw [keyzero a b hb, keyzero b a ha]
    constructor
    · intro h; exact h.symm
    · intro h; exact h.symm
  · rw [keyneg a b hb, key b a ha]

/-- C7 witness: the amended sign-antisymmetry applied at the concrete
positive means 200 and 100. -/
theorem c7_percent_diff_sign_antisymmetric_witness :
    (0 < percentDiff 200 100 ↔ percentDiff 100 200 < 0) ∧
    (percentDiff 200 100 = 0 ↔ percentDiff 100 200 = 0) ∧
    (percentDiff 200 100 < 0 ↔ 0 < percentDiff 100 200) :=
  c7_percent_diff_sign_antisymmetric 200 100 (by norm_num) (by norm_num)

/-! ## Claim C8 -/

/-- C8: the recommendation list is exactly the fixed threshold rules — mean
total sleep < 360 → increase sleep; mean total sleep > 540 → possibly
excessive sleep; mean heart rate > 80 → lower resting heart rate; mean
consumption count per day > 1 → reduce frequency — and is never empty: when
no rule fires it is the single placeholder entry.  A rule can only fire when
its column exists (its mean would otherwise be undefined); the consumption
mean averages over the days carrying the unfilled `consumption_count`. -/
theorem c8_recommendations_characterized (t : List Row) :
    generateSimpleRecommendations t ≠ [] ∧
    (∀ a ∈ generateSimpleRecommendations t,
      a ∈ [Advice.increaseSleep (colMean (t.map Row.totalSleepF)),
           Advice.excessiveSleep (colMean (t.map Row.totalSleepF)),
           Advice.lowerHeartRate (colMean (t.map Row.avgHeartRateF)),
           Advice.reduceFrequency (consCountMean t), Advice.noSpecific]) ∧
    (Advice.increaseSleep (colMean (t.map Row.totalSleepF)) ∈
        generateSimpleRecommendations t ↔
      sleepColExists t = true ∧ colMean (t.map Row.totalSleepF) < 360) ∧
    (Advice.excessiveSleep (colMean (t.map Row.totalSleepF)) ∈
        generateSimpleRecommendations t ↔
      sleepColExists t = true ∧ 540 < colMean (t.map Row.totalSleepF)) ∧
    (Advice.lowerHeartRate (colMean (t.map Row.avgHeartRateF)) ∈
        generateSimpleRecommendations t ↔
      hrColExists t = true ∧ 80 < colMean (t.map Row.avgHeartRateF)) ∧
    (Advice.reduceFrequency (consCountMean t) ∈ generateSimpleRecommendations t ↔
      consColExists t = true ∧ 1 < consCountMean t) ∧
    (Advice.noSpecific ∈ generateSimpleRecommendations t ↔
      ¬ (sleepColExists t = true ∧
          (colMean (t.map Row.totalSleepF) < 360 ∨ 540 < colMean (t.map Row.totalSleepF))) ∧
      ¬ (hrColExists t = true ∧ 80 < colMean (t.map Row.avgHeartRateF)) ∧
      ¬ (consColExists t = true ∧ 1 < consCountMean t)) := by
  by_cases hs : sleepColExists t <;> by_cases hh : hrColExists t <;>
    by_cases hc : consColExists t <;>
    by_cases h1 : colMean (t.map Row.totalSleepF) < 360 <;>
    by_cases h2 : 540 < colMean (t.map Row.totalSleepF) <;>
    by_cases h3 : 80 < colMean (t.map Row.avgHeartRateF) <;>
    by_cases h4 : 1 < consCountMean t <;>
    first
      | (exfalso; linarith)
      | simp [generateSimpleRecommendations, hs, hh, hc, h1, h2, h3, h4]

/-! ## Lemmas on the find-or-create merge of `combine_data` -/

theorem obsDates_nodup (ds : List Int) : (obsDates ds).Nodup :=
  ((List.perm_insertionSort _ ds.dedup).nodup_iff).mpr ds.nodup_dedup

theorem mem_obsDates (ds : List Int) (x : Int) : x ∈ obsDates ds ↔ x ∈ ds := by
  unfold obsDates
  rw [(List.perm_insertionSort _ ds.dedup).mem_iff, List.mem_dedup]

theorem obsDates_sorted (ds : List Int) : (obsDates ds).Sorted (· ≤ ·) :=
  List.sorted_insertionSort _ ds.dedup

theorem mergeInto_map_date {d : Int} {upd : Row → Row} {mk : Row}
    (hupd : ∀ r, (upd r).date = r.date) (hmk : mk.date = d) (recs : List Row) (x : Int) :
    x ∈ (mergeInto d upd mk recs).map Row.date ↔ x ∈ recs.map Row.date ∨ x = d := by
  unfold mergeInto
  by_cases hany : recs.any (fun r => r.date == d)
  · rw [if_pos hany]
    have hdates : (recs.map (fun r => if r.date == d then upd r else r)).map Row.date =
        recs.map Row.date := by
      rw [List.map_map]
      refine List.map_congr_left (fun r _ => ?_)
      simp only [Function.comp_apply]
      by_cases hr : r.date == d
      · rw [if_pos hr]; exact hupd r
      · rw [if_neg hr]
    rw [hdates]
    obtain ⟨r, hrmem, hrd⟩ := List.any_eq_true.mp hany
    have hd : d ∈ recs.map Row.date :=
      List.mem_map.mpr ⟨r, hrmem, by exact beq_iff_eq.mp hrd⟩
    constructor
    · exact fun h => Or.inl h
    · rintro (h | rfl)
      · exact h
      · exact hd
  · rw [if_neg hany]
    simp [hmk, or_comm]

theorem mergeInto_map_date_nodup {d : Int} {upd : Row → Row} {mk : Row}
    (hupd : ∀ r, (upd r).date = r.date) (hmk : mk.date = d) (recs : List Row)
    (hnd : (recs.map Row.date).Nodup) :
    ((mergeInto d upd mk recs).map Row.date).Nodup := by
  unfold mergeInto
  by_cases hany : recs.any (fun r => r.date == d)
  · rw [if_pos hany]
    have hdates : (recs.map (fun r => if r.date == d then upd r else r)).map Row.date =
        recs.map Row.date := by
      rw [List.map_map]
      refine List.map_congr_left (fun r _ => ?_)
      simp only [Function.comp_apply]
      by_cases hr : r.date == d
      · rw [if_pos hr]; exact hupd r
      · rw [if_neg hr]
    rw [hdates]
    exact hnd
  · rw [if_neg hany]
    rw [List.map_append]
    refine List.Nodup.append hnd (by simp) ?_
    intro x hx hy
    simp only [List.map_cons, List.map_nil, List.mem_singleton, hmk] at hy
    subst hy
    obtain ⟨r, hrmem, hrd⟩ := List.mem_map.mp hx
    exact (List.any_eq_true.mpr ⟨r, hrmem, beq_iff_eq.mpr hrd⟩) |> hany |>.elim

/-- Membership analysis of one merge step. -/
theorem mem_mergeInto {d : Int} {upd : Row → Row} {mk : Row} {recs : List Row} {r : Row}
    (h : r ∈ mergeInto d upd mk recs) :
    (∃ s ∈ recs, s.date = d ∧ r = upd s) ∨ (r ∈ recs ∧ r.date ≠ d) ∨ r = mk := by
  unfold mergeInto at h
  by_cases hany : recs.any (fun s => s.date == d)
  · rw [if_pos hany] at h
    obtain ⟨s, hsmem, hs⟩ := List.mem_map.mp h
    by_cases hsd : s.date == d
    · rw [if_pos hsd] at hs
      exact Or.inl ⟨s, hsmem, beq_iff_eq.mp hsd, hs.symm⟩
    · rw [if_neg hsd] at hs
      subst hs
      exact Or.inr (Or.inl ⟨hsmem, fun hd => hsd (beq_iff_eq.mpr hd)⟩)
  · rw [if_neg hany] at h
    rcases List.mem_append.mp h with h | h
    · refine Or.inr (Or.inl ⟨h, fun hd => ?_⟩)
      exact hany (List.any_eq_true.mpr ⟨r, h, beq_iff_eq.mpr hd⟩)
    · exact Or.inr (Or.inr (List.mem_singleton.mp h))

/-- Invariant preservation through a whole merge loop.  `Touched` marks the
rows the loop has already updated or created; a touched row's date never
reappears among the remaining group keys, so each key updates only untouched
rows. -/
theorem foldl_mergeInto_invariant {upd : Int → Row → Row} {mk : Int → Row}
    (P Touched : Row → Prop)
    (hupdDate : ∀ d r, (upd d r).date = r.date)
    (hupdP : ∀ d r, P r → ¬ Touched r → r.date = d → P (upd d r) ∧ Touched (upd d r))
    (hmkP : ∀ d, P (mk d) ∧ Touched (mk d) ∧ (mk d).date = d) :
    ∀ (ds : List Int), ds.Nodup →
      ∀ (acc : List Row), (∀ r ∈ acc, P r) → (∀ r ∈ acc, Touched r → r.date ∉ ds) →
        ∀ r ∈ ds.foldl (fun recs d => mergeInto d (upd d) (mk d) recs) acc, P r := by
  intro ds
  induction ds with
  | nil => intro _ acc hP _ r hr; exact hP r hr
  | cons d rest ih =>
    intro hnd acc hP hdisj
    rw [List.foldl_cons]
    refine ih hnd.of_cons (mergeInto d (upd d) (mk d) acc) ?_ ?_
    · intro r hr
      rcases mem_mergeInto hr with ⟨s, hsmem, hsd, rfl⟩ | ⟨hmem, _⟩ | rfl
      · have hnt : ¬ Touched s := fun ht => (hdisj s hsmem ht) (hsd ▸ List.mem_cons_self d rest)
        exact (hupdP d s (hP s hsmem) hnt hsd).1
      · exact hP r hmem
      · exact (hmkP d).1
    · intro r hr ht
      rcases mem_mergeInto hr with ⟨s, hsmem, hsd, rfl⟩ | ⟨hmem, hne⟩ | rfl
      · rw [hupdDate d s, hsd]
        exact fun hmem2 => (List.nodup_cons.mp hnd).1 hmem2
      · intro hmem2
        exact (hdisj r hmem ht) (List.mem_cons_of_mem d hmem2)
      · rw [(hmkP d).2.2]
        exact fun hmem2 => (List.nodup_cons.mp hnd).1 hmem2

/-- Date coverage of a whole merge loop. -/
theorem foldl_mergeInto_map_date {upd : Int → Row → Row} {mk : Int → Row}
    (hupd : ∀ d r, (upd d r).date = r.date) (hmk : ∀ d, (mk d).date = d) :
    ∀ (ds : List Int) (acc : List Row) (x : Int),
      x ∈ (ds.foldl (fun recs d => mergeInto d (upd d) (mk d) recs) acc).map Row.date ↔
        x ∈ acc.map Row.date ∨ x ∈ ds := by
  intro ds
  induction ds with
  | nil => intro acc x; simp
  | cons d rest ih =>
    intro acc x
    rw [List.foldl_cons, ih, mergeInto_map_date (hupd d) (hmk d)]
    constructor
    · rintro ((h | rfl) | h)
      · exact Or.inl h
      · exact Or.inr (List.mem_cons_self x rest)
      · exact Or.inr (List.mem_cons_of_mem d h)
    · rintro (h | h)
      · exact Or.inl (Or.inl h)
      · rcases List.mem_cons.mp h with rfl | h
        · exact Or.inl (Or.inr rfl)
        · exact Or.inr h

/-- Date distinctness through a whole merge loop. -/
theorem foldl_mergeInto_map_date_nodup {upd : Int → Row → Row} {mk : Int → Row}
    (hupd : ∀ d r, (upd d r).date = r.date) (hmk : ∀ d, (mk d).date = d) :
    ∀ (ds : List Int) (acc : List Row), (acc.map Row.date).Nodup →
      ((ds.foldl (fun recs d => mergeInto d (upd d) (mk d) recs) acc).map Row.date).Nodup := by
  intro ds
  induction ds with
  | nil => intro acc h; exact h
  | cons d rest ih =>
    intro acc h
    rw [List.foldl_cons]
    exact ih _ (mergeInto_map_date_nodup (hupd d) (hmk d) acc h)

/-! ## Claim C4 -/

theorem combineRecs1_map_date (sObs : List SleepObs) :
    (combineRecs1 sObs).map Row.date = obsDates (sObs.map SleepObs.date) := by
  unfold combineRecs1
  rw [List.map_map]
  exact List.map_id _

theorem combineRecs3_map_date_mem (sObs : List SleepObs) (hObs : List HrObs)
    (cObs : List ConsObs) (x : Int) :
    x ∈ (combineRecs3 sObs hObs cObs).map Row.date ↔
      x ∈ sObs.map SleepObs.date ∨ x ∈ hObs.map HrObs.date ∨ x ∈ cObs.map ConsObs.date := by
  unfold combineRecs3 combineRecs2
  rw [@foldl_mergeInto_map_date (consUpd cObs) (consNewRow cObs) (fun d r => rfl) (fun d => rfl),
    @foldl_mergeInto_map_date (hrUpd hObs) (hrNewRow hObs) (fun d r => rfl) (fun d => rfl),
    combineRecs1_map_date, mem_obsDates, mem_obsDates, mem_obsDates]
  tauto

theorem combineRecs3_map_date_nodup (sObs : List SleepObs) (hObs : List HrObs)
    (cObs : List ConsObs) :
    ((combineRecs3 sObs hObs cObs).map Row.date).Nodup := by
  unfold combineRecs3 combineRecs2
  refine @foldl_mergeInto_map_date_nodup (consUpd cObs) (consNewRow cObs)
    (fun d r => rfl) (fun d => rfl) _ _ ?_
  refine @foldl_mergeInto_map_date_nodup (hrUpd hObs) (hrNewRow hObs)
    (fun d r => rfl) (fun d => rfl) _ _ ?_
  rw [combineRecs1_map_date]
  exact obsDates_nodup _

/-- C4: the combined daily table has exactly one row per calendar date that
appears in any of the three input series, and its rows are sorted strictly
ascending by date (strict ascent is equivalent to "sorted and no duplicate
dates"). -/
theorem c4_one_row_per_date_sorted (sObs : List SleepObs) (hObs : List HrObs)
    (cObs : List ConsObs) :
    ((combineData sObs hObs cObs).map Row.date).Pairwise (· < ·) ∧
    ∀ d : Int, d ∈ (combineData sObs hObs cObs).map Row.date ↔
      (d ∈ sObs.map SleepObs.date ∨ d ∈ hObs.map HrObs.date ∨ d ∈ cObs.map ConsObs.date) := by
  haveI htotal : IsTotal Row (fun a b => a.date ≤ b.date) :=
    ⟨fun a b => le_total a.date b.date⟩
  haveI htrans : IsTrans Row (fun a b => a.date ≤ b.date) :=
    ⟨fun a b c hab hbc => le_trans hab hbc⟩
  have hperm : List.Perm (combineData sObs hObs cObs) (combineRecs3 sObs hObs cObs) :=
    List.perm_insertionSort _ _
  have hpermd : List.Perm ((combineData sObs hObs cObs).map Row.date)
      ((combineRecs3 sObs hObs cObs).map Row.date) := hperm.map _
  constructor
  · have hsorted : (combineData sObs hObs cObs).Sorted (fun a b => a.date ≤ b.date) :=
      List.sorted_insertionSort _ _
    have hle : ((combineData sObs hObs cObs).map Row.date).Pairwise (· ≤ ·) :=
      List.pairwise_map.mpr hsorted
    have hnd : ((combineData sObs hObs cObs).map Row.date).Nodup :=
      hpermd.nodup_iff.mpr (combineRecs3_map_date_nodup sObs hObs cObs)
    exact (hle.and hnd).imp (fun h => lt_of_le_of_ne h.1 h.2)
  · intro d
    rw [hpermd.mem_iff]
    exact combineRecs3_map_date_mem sObs hObs cObs d

/-! ## Claim C10 -/

theorem colMean_of_all_zero (l : List ℚ) (h : ∀ x ∈ l, x = 0) : colMean l = 0 := by
  unfold colMean
  rw [List.sum_eq_zero h, zero_div]

/-- Rows of a consumption-only combined table are all fresh consumption
records (no merge ever fires because the group dates are distinct). -/
theorem combineData_cons_only (cObs : List ConsObs) :
    ∀ r ∈ combineData [] [] cObs,
      r.sleep = none ∧ r.hr = none ∧
        r.cons = some (consAggOf (consGroup cObs r.date) none) := by
  intro r hr
  have hr3 : r ∈ combineRecs3 [] [] cObs :=
    (List.perm_insertionSort _ _).subset hr
  have hbase : combineRecs2 [] [] = ([] : List Row) := rfl
  unfold combineRecs3 at hr3
  rw [hbase] at hr3
  refine @foldl_mergeInto_invariant (consUpd cObs) (consNewRow cObs)
    (fun s => s.sleep = none ∧ s.hr = none ∧
      s.cons = some (consAggOf (consGroup cObs s.date) none))
    (fun s => s.cons.isSome = true)
    (fun d s => rfl) ?_ ?_
    (obsDates (cObs.map ConsObs.date)) (obsDates_nodup _) [] (by simp) (by simp) r hr3
  · intro d s hP hnt _
    exact absurd (show s.cons.isSome = true by rw [hP.2.2]; rfl) hnt
  · intro d
    exact ⟨⟨rfl, rfl, rfl⟩, rfl, rfl⟩

/-- C10: an entry whose `rating` key is absent is loaded (not skipped) with
rating `float(0) = 0.0`; a date all of whose entries lack ratings gets a mean
consumption rating of 0 in the combined table, which the engine reads as the
valid numeric value 0 of the `avg_consumption_rating` column. -/
theorem c10_absent_rating_loads_as_zero :
    (∀ (entries : List RawEntry) (e : RawEntry), e ∈ entries → e.rating = none →
      ∀ d : Int, e.date = some d →
        (⟨d, e.hour, e.substance.getD "Unbekannt", e.dosage.getD "", 0, e.cost.getD 0,
          e.mood.getD "", e.setting.getD "", e.experience.getD ""⟩ : ConsObs) ∈
          parseConsEntries entries) ∧
    (∀ (entries : List RawEntry) (d : Int),
      (∀ e ∈ entries, e.date = some d → e.rating = none) →
      ∀ r ∈ combineData [] [] (sortConsByTime (parseConsEntries entries)), r.date = d →
        r.cons.isSome = true ∧ r.avgRatingF = 0 ∧
          metricValueR Metric.avgConsumptionRating r = 0) := by
  constructor
  · intro entries e he hrat d hd
    refine List.mem_filterMap.mpr ⟨e, he, ?_⟩
    rw [hd, hrat]
    rfl
  · intro entries d hall r hr hrd
    obtain ⟨hs, hh, hc⟩ := combineData_cons_only _ r hr
    have hzero : ∀ o ∈ consGroup (sortConsByTime (parseConsEntries entries)) r.date,
        o.rating = 0 := by
      intro o ho
      have ho2 : o ∈ sortConsByTime (parseConsEntries entries) :=
        List.mem_of_mem_filter ho
      have hod : o.date = r.date := by
        have := List.of_mem_filter ho
        exact beq_iff_eq.mp this
      have ho3 : o ∈ parseConsEntries entries :=
        (List.perm_insertionSort _ _).subset ho2
      obtain ⟨e, hemem, hef⟩ := List.mem_filterMap.mp ho3
      rcases hedate : e.date with _ | d0
      · rw [hedate] at hef; exact absurd hef (by simp)
      · rw [hedate] at hef
        have hoe : o = ⟨d0, e.hour, e.substance.getD "Unbekannt", e.dosage.getD "",
            e.rating.getD 0, e.cost.getD 0, e.mood.getD "", e.setting.getD "",
            e.experience.getD ""⟩ := by
          exact (Option.some_inj.mp hef).symm
        have hd0 : d0 = d := by rw [hoe] at hod; rw [← hrd, ← hod]
        have hrat : e.rating = none := hall e hemem (by rw [hedate, hd0])
        rw [hoe, hrat]
        rfl
    have havg : (consAggOf (consGroup (sortConsByTime (parseConsEntries entries)) r.date)
        none).avgRating = 0 := by
      unfold consAggOf
      exact colMean_of_all_zero _ (fun x hx => by
        obtain ⟨o, ho, rfl⟩ := List.mem_map.mp hx
        exact hzero o ho)
    refine ⟨by rw [hc]; rfl, ?_, ?_⟩
    · unfold Row.avgRatingF
      rw [hc]
      exact havg
    · show ((r.avgRatingF : ℚ) : ℝ) = 0
      rw [show r.avgRatingF = 0 from by unfold Row.avgRatingF; rw [hc]; exact havg]
      exact Rat.cast_zero

/-- One entry with a parsable date and no `rating` key. -/
def c10Entries : List RawEntry :=
  [⟨some 0, 12, some "A", none, none, none, none, none, none⟩]

/-- The loaded consumption series of `c10Entries`. -/
def c10Cons : List ConsObs := sortConsByTime (parseConsEntries c10Entries)

/-- C10 witness: the single rating-less entry is loaded with rating 0, and
its day's combined row carries mean rating 0 as a valid numeric column
value. -/
theorem c10_absent_rating_loads_as_zero_witness :
    ((⟨0, 12, "A", "", 0, 0, "", "", ""⟩ : ConsObs) ∈ parseConsEntries c10Entries) ∧
    ((consNewRow c10Cons 0).cons.isSome = true ∧ (consNewRow c10Cons 0).avgRatingF = 0 ∧
      metricValueR Metric.avgConsumptionRating (consNewRow c10Cons 0) = 0) := by
  constructor
  · exact c10_absent_rating_loads_as_zero.1 c10Entries
      ⟨some 0, 12, some "A", none, none, none, none, none, none⟩
      (List.mem_singleton.mpr rfl) rfl 0 rfl
  · have hmem : consNewRow c10Cons 0 ∈ combineData [] [] c10Cons := by
      rw [show combineData [] [] c10Cons = [consNewRow c10Cons 0] from rfl]
      exact List.mem_singleton.mpr rfl
    exact c10_absent_rating_loads_as_zero.2 c10Entries 0
      (fun e he _ => by rcases List.mem_singleton.mp he with rfl; rfl)
      (consNewRow c10Cons 0) hmem rfl

/-! ## Claim C6 -/

/-- A consumption observation in the evening window (hour 20) on a date with
no sleep and no heart-rate data. -/
def c6EveningObs : ConsObs := ⟨0, 20, "A", "", 3, 5, "", "", ""⟩

/-- C6 counterexample: the claim says the evening subset is recorded for
every date with a nonempty evening subset, including dates without sleep or
heart-rate data.  For a lone evening observation on such a date the combined
row's evening fields are absent: the source computes them only in the
merge-into-existing-record branch (lines 1663-1670), and a consumption-only
date takes the fresh-record branch (lines 1671-1683). -/
theorem c6_counterexample :
    eveningWindow (consGroup [c6EveningObs] 0) = [c6EveningObs] ∧
    combineData [] [] [c6EveningObs] = [consNewRow [c6EveningObs] 0] ∧
    (consNewRow [c6EveningObs] 0).sleep = none ∧
    (consNewRow [c6EveningObs] 0).hr = none ∧
    (consNewRow [c6EveningObs] 0).cons =
      some (consAggOf (consGroup [c6EveningObs] 0) none) ∧
    (consAggOf (consGroup [c6EveningObs] 0) none).evening = none :=
  ⟨rfl, rfl, rfl, rfl, rfl, rfl⟩

theorem combineRecs2_no_cons (sObs : List SleepObs) (hObs : List HrObs) :
    ∀ r ∈ combineRecs2 sObs hObs,
      r.cons = none ∧ (r.sleep.isSome = true ∨ r.hr.isSome = true) := by
  unfold combineRecs2
  refine @foldl_mergeInto_invariant (hrUpd hObs) (hrNewRow hObs)
    (fun r => r.cons = none ∧ (r.sleep.isSome = true ∨ r.hr.isSome = true))
    (fun r => r.hr.isSome = true)
    (fun d r => rfl) ?_ ?_ _ (obsDates_nodup _) _ ?_ ?_
  · intro d r hP _ _
    exact ⟨⟨hP.1, Or.inr rfl⟩, rfl⟩
  · intro d
    exact ⟨⟨rfl, Or.inr rfl⟩, rfl, rfl⟩
  · intro r hr
    obtain ⟨d, _, rfl⟩ := List.mem_map.mp hr
    exact ⟨rfl, Or.inl rfl⟩
  · intro r hr ht
    obtain ⟨d, _, rfl⟩ := List.mem_map.mp hr
    exact absurd ht (by simp [sleepRowOf])

/-- C6 amended: a combined row carrying consumption data records the evening
subset (distinct substances and count of the observations with hour in
[18, 24]) exactly when the date also has sleep or heart-rate data; a
consumption-only date's row never gets evening fields. -/
theorem c6_evening_only_on_merged_rows (sObs : List SleepObs) (hObs : List HrObs)
    (cObs : List ConsObs) :
    ∀ r ∈ combineData sObs hObs cObs, ∀ ca, r.cons = some ca →
      ((r.sleep.isSome = true ∨ r.hr.isSome = true) ∧
        ca = consAggOf (consGroup cObs r.date) (eveningInfo (consGroup cObs r.date))) ∨
      (r.sleep = none ∧ r.hr = none ∧
        ca = consAggOf (consGroup cObs r.date) none) := by
  intro r hr
  have hr3 : r ∈ combineRecs3 sObs hObs cObs :=
    (List.perm_insertionSort _ _).subset hr
  unfold combineRecs3 at hr3
  have hinv := @foldl_mergeInto_invariant (consUpd cObs) (consNewRow cObs)
    (fun s =>
      (s.cons = none → (s.sleep.isSome = true ∨ s.hr.isSome = true)) ∧
      (∀ ca, s.cons = some ca →
        ((s.sleep.isSome = true ∨ s.hr.isSome = true) ∧
          ca = consAggOf (consGroup cObs s.date) (eveningInfo (consGroup cObs s.date))) ∨
        (s.sleep = none ∧ s.hr = none ∧ ca = consAggOf (consGroup cObs s.date) none)))
    (fun s => s.cons.isSome = true)
    (fun d s => rfl) ?_ ?_ (obsDates (cObs.map ConsObs.date)) (obsDates_nodup _)
    (combineRecs2 sObs hObs) ?_ ?_ r hr3
  · exact hinv.2
  · intro d s hP hnt hd
    have hnone : s.cons = none := by
      cases hcons : s.cons with
      | none => rfl
      | some ca => exact absurd (show s.cons.isSome = true by rw [hcons]; rfl) hnt
    refine ⟨⟨fun habs => absurd habs (Option.some_ne_none _), fun ca hca => ?_⟩, rfl⟩
    left
    refine ⟨hP.1 hnone, ?_⟩
    have hca2 : ca = consAggOf (consGroup cObs d) (eveningInfo (consGroup cObs d)) :=
      (Option.some_inj.mp hca).symm
    rw [hca2, show (consUpd cObs d s).date = d from hd]
  · intro d
    refine ⟨⟨fun habs => absurd habs (Option.some_ne_none _), fun ca hca => ?_⟩, rfl, rfl⟩
    right
    exact ⟨rfl, rfl, (Option.some_inj.mp hca).symm⟩
  · intro s hs
    refine ⟨fun _ => (combineRecs2_no_cons sObs hObs s hs).2, fun ca hca => ?_⟩
    exact absurd hca (by rw [(combineRecs2_no_cons sObs hObs s hs).1]; simp)
  · intro s hs ht
    rw [(combineRecs2_no_cons sObs hObs s hs).1] at ht
    exact absurd ht (by simp)

/-- One total-sleep observation on day 0 (so the consumption loop merges
into an existing record). -/
def c6wSleep : List SleepObs := [⟨0, 23, SleepType.total, 420⟩]

/-- One evening consumption observation on day 0. -/
def c6wCons : List ConsObs := [⟨0, 20, "A", "", 3, 5, "", "", ""⟩]

/-- C6 witness: on a day with sleep data the merged row does carry the
evening fields, per the amended statement, and they evaluate to the distinct
substance list `["A"]` with count 1. -/
theorem c6_evening_only_on_merged_rows_witness :
    (((consUpd c6wCons 0 (sleepRowOf c6wSleep 0)).sleep.isSome = true ∨
        (consUpd c6wCons 0 (sleepRowOf c6wSleep 0)).hr.isSome = true) ∧
      consAggOf (consGroup c6wCons 0) (eveningInfo (consGroup c6wCons 0)) =
        consAggOf (consGroup c6wCons (consUpd c6wCons 0 (sleepRowOf c6wSleep 0)).date)
          (eveningInfo
            (consGroup c6wCons (consUpd c6wCons 0 (sleepRowOf c6wSleep 0)).date)) ∨
      ((consUpd c6wCons 0 (sleepRowOf c6wSleep 0)).sleep = none ∧
        (consUpd c6wCons 0 (sleepRowOf c6wSleep 0)).hr = none ∧
        consAggOf (consGroup c6wCons 0) (eveningInfo (consGroup c6wCons 0)) =
          consAggOf (consGroup c6wCons (consUpd c6wCons 0 (sleepRowOf c6wSleep 0)).date)
            none)) ∧
    eveningInfo (consGroup c6wCons 0) = some (["A"], 1) := by
  constructor
  · have hmem : consUpd c6wCons 0 (sleepRowOf c6wSleep 0) ∈
        combineData c6wSleep [] c6wCons := by
      rw [show combineData c6wSleep [] c6wCons =
        [consUpd c6wCons 0 (sleepRowOf c6wSleep 0)] from rfl]
      exact List.mem_singleton.mpr rfl
    exact c6_evening_only_on_merged_rows c6wSleep [] c6wCons
      (consUpd c6wCons 0 (sleepRowOf c6wSleep 0)) hmem
      (consAggOf (consGroup c6wCons 0) (eveningInfo (consGroup c6wCons 0))) rfl
  · rfl

/-! ## Claim C3 -/

theorem all_eq_mean_of_sum_sq_zero (l : List ℚ) (mean : ℚ)
    (h : (l.map (fun x => (x - mean) ^ 2)).sum = 0) : ∀ x ∈ l, x = mean := by
  intro x hx
  have hnn : ∀ y ∈ l.map (fun y => (y - mean) ^ 2), 0 ≤ y := by
    intro y hy
    obtain ⟨z, _, rfl⟩ := List.mem_map.mp hy
    exact sq_nonneg _
  have hterm : (x - mean) ^ 2 = 0 := by
    by_contra hne
    have hpos : 0 < (x - mean) ^ 2 := lt_of_le_of_ne (sq_nonneg _) (Ne.symm hne)
    have hle := List.single_le_sum hnn _ (List.mem_map_of_mem (fun y => (y - mean) ^ 2) hx)
    rw [h] at hle
    have hle2 : (x - mean) ^ 2 ≤ 0 := hle
    linarith
  have := sub_eq_zero.mp (sq_eq_zero_iff.mp hterm)
  linarith

theorem sampleVar_nonneg (l : List ℚ) (v : ℚ) (h : sampleVar l = some v) : 0 ≤ v := by
  unfold sampleVar at h
  by_cases hl : 2 ≤ l.length
  · rw [if_pos hl] at h
    rw [← Option.some_inj.mp h]
    refine div_nonneg (List.sum_nonneg ?_) ?_
    · intro y hy
      obtain ⟨z, _, rfl⟩ := List.mem_map.mp hy
      exact sq_nonneg _
    · have : (2 : ℚ) ≤ (l.length : ℚ) := by exact_mod_cast hl
      linarith
  · rw [if_neg hl] at h
    exact Option.noConfusion h

theorem sampleVar_nonpos_all_mean (l : List ℚ) (v : ℚ) (h : sampleVar l = some v)
    (hv : v ≤ 0) : ∀ x ∈ l, x = colMean l := by
  unfold sampleVar at h
  by_cases hl : 2 ≤ l.length
  · rw [if_pos hl] at h
    have hval := Option.some_inj.mp h
    have hden : (0 : ℚ) < (l.length : ℚ) - 1 := by
      have : (2 : ℚ) ≤ (l.length : ℚ) := by exact_mod_cast hl
      linarith
    have hS : 0 ≤ (l.map (fun x => (x - colMean l) ^ 2)).sum := by
      refine List.sum_nonneg ?_
      intro y hy
      obtain ⟨z, _, rfl⟩ := List.mem_map.mp hy
      exact sq_nonneg _
    have hSle : (l.map (fun x => (x - colMean l) ^ 2)).sum ≤ 0 := by
      have hle : (l.map (fun x => (x - colMean l) ^ 2)).sum / ((l.length : ℚ) - 1) ≤ 0 := by
        rw [hval]; exact hv
      rw [div_le_iff₀ hden] at hle
      linarith
    exact all_eq_mean_of_sum_sq_zero l (colMean l) (le_antisymm hSle hS)
  · rw [if_neg hl] at h
    exact Option.noConfusion h

/-- The 2-standard-deviation rule as the spec states it: the column's sample
standard deviation exists and the day's value deviates from the column mean
by more than twice that deviation. -/
def specAnomaly (t : List Row) (r : Row) : Prop :=
  ∃ v, sampleVar (hrColumn t) = some v ∧
    anomalous (colMean (hrColumn t)) v r.avgHeartRateF

instance specAnomalyDecidable (t : List Row) (r : Row) : Decidable (specAnomaly t r) :=
  match h : sampleVar (hrColumn t) with
  | none =>
    isFalse (fun ⟨_, hv, _⟩ => Option.noConfusion (h ▸ hv))
  | some v =>
    decidable_of_iff (anomalous (colMean (hrColumn t)) v r.avgHeartRateF)
      ⟨fun ha => ⟨v, h, ha⟩,
        fun ⟨w, hw, ha⟩ => by rwa [Option.some_inj.mp (hw.symm.trans h)] at ha⟩

/-- The gated anomaly loop of lines 1883-1891 flags exactly the rows the
ungated 2-standard-deviation rule flags: the `std_hr > 0` guard only skips
situations in which no row could deviate anyway (`NaN` deviation with fewer
than two rows, zero deviation with a constant column). -/
theorem anomalyRows_eq_spec_filter (t : List Row) :
    anomalyRows t =
      t.filter (fun r => decide (hrColExists t = true ∧ specAnomaly t r)) := by
  unfold anomalyRows
  split
  · rename_i hcol
    split
    · rename_i v hvar
      split
      · rename_i hv
        refine List.filter_congr ?_
        intro r _
        refine decide_eq_decide.mpr ?_
        constructor
        · intro ha
          exact ⟨hcol, v, hvar, ha⟩
        · rintro ⟨_, w, hw, ha⟩
          rwa [Option.some_inj.mp (hw.symm.trans hvar)] at ha
      · rename_i hv
        symm
        rw [List.filter_eq_nil_iff]
        intro r hr
        simp only [decide_eq_true_eq]
        rintro ⟨_, w, hw, ha⟩
        have hwv : w = v := Option.some_inj.mp (hw.symm.trans hvar)
        rw [hwv] at ha
        have hall := sampleVar_nonpos_all_mean _ v hvar (le_of_not_lt hv)
        have hxm : r.avgHeartRateF = colMean (hrColumn t) :=
          hall _ (List.mem_map_of_mem Row.avgHeartRateF hr)
        unfold anomalous at ha
        rw [hxm, sub_self, abs_zero] at ha
        have := Real.sqrt_nonneg ((v : ℚ) : ℝ)
        linarith
    · rename_i hvar
      symm
      rw [List.filter_eq_nil_iff]
      intro r _
      simp only [decide_eq_true_eq]
      rintro ⟨_, v, hv, _⟩
      exact Option.noConfusion (hv.symm.trans hvar)
  · rename_i hcol
    symm
    rw [List.filter_eq_nil_iff]
    intro r _
    simp only [decide_eq_true_eq]
    rintro ⟨habs, _⟩
    exact hcol habs

/-- The claim's scenario: five days with heart-rate means 60, 62, 61, 63,
150 and no other data. -/
def c3Table : List Row :=
  [⟨0, none, some ⟨60, 60, 60, none, 1⟩, none⟩,
   ⟨1, none, some ⟨62, 62, 62, none, 1⟩, none⟩,
   ⟨2, none, some ⟨61, 61, 61, none, 1⟩, none⟩,
   ⟨3, none, some ⟨63, 63, 63, none, 1⟩, none⟩,
   ⟨4, none, some ⟨150, 150, 150, none, 1⟩, none⟩]

/-- No day of the scenario deviates by more than two sample standard
deviations: the outlier's deviation is 70.8 while twice the standard
deviation is √6270.8 ≈ 79.2. -/
theorem c3Table_no_anomalies : anomalyRows c3Table = [] := by
  rw [anomalyRows_eq_spec_filter, List.filter_eq_nil_iff]
  intro r hr
  simp only [decide_eq_true_eq]
  rintro ⟨_, v, hv, ha⟩
  have hcol : hrColumn c3Table = [60, 62, 61, 63, 150] := rfl
  have hvar : sampleVar (hrColumn c3Table) = some (15677 / 10) := by
    rw [hcol]
    norm_num [sampleVar, colMean]
  have hveq : v = 15677 / 10 :=
    (Option.some_inj.mp (hv.symm.trans hvar))
  subst hveq
  have hmean : colMean (hrColumn c3Table) = 396 / 5 := by
    rw [hcol]
    norm_num [colMean]
  rw [hmean, anomalous_iff_of_nonneg _ _ _ (by norm_num)] at ha
  simp only [c3Table, List.mem_cons, List.not_mem_nil, or_false] at hr
  rcases hr with rfl | rfl | rfl | rfl | rfl <;>
    norm_num [Row.avgHeartRateF] at ha

/-- C3 amended: the analysis flags exactly the days whose mean heart rate
deviates from the column mean by more than 2 sample standard deviations
(the `std > 0` gate changes nothing), with percentage = count / total × 100
(`none` exactly for the empty table); but on the scenario
[60, 62, 61, 63, 150] the anomaly count is 0, not 1 — the outlier's
deviation (70.8) does not exceed twice the sample standard deviation
(≈ 79.2). -/
theorem c3_two_sigma_rule_amended (t : List Row) :
    anomalyRows t =
      t.filter (fun r => decide (hrColExists t = true ∧ specAnomaly t r)) ∧
    (∀ ml, performMachineLearningAnalysis t = some ml →
      ml.anomalyDays = (anomalyRows t).length ∧
      ml.anomalyPct = ((anomalyRows t).length : ℚ) / (t.length : ℚ) * 100) ∧
    (performMachineLearningAnalysis t = none ↔ t = []) ∧
    (anomalyRows c3Table).length = 0 := by
  refine ⟨anomalyRows_eq_spec_filter t, ?_, ?_, by rw [c3Table_no_anomalies]; rfl⟩
  · intro ml hml
    unfold performMachineLearningAnalysis at hml
    by_cases he : t.isEmpty
    · rw [if_pos he] at hml
      exact Option.noConfusion hml
    · rw [if_neg he] at hml
      have hlen : 0 < t.length := by
        cases t with
        | nil => exact absurd rfl he
        | cons a l => simp
      rw [← Option.some_inj.mp hml]
      exact ⟨rfl, by rw [if_pos hlen]⟩
  · unfold performMachineLearningAnalysis
    by_cases he : t.isEmpty
    · rw [if_pos he]
      simpa using List.isEmpty_iff.mp he
    · rw [if_neg he]
      constructor
      · intro h
        exact Option.noConfusion h
      · intro h
        exact absurd (List.isEmpty_iff.mpr h) he

/-- C3 counterexample: on the scenario the code reports 0 anomalies, not the
expected 1. -/
theorem c3_counterexample :
    (performMachineLearningAnalysis c3Table).map MlResults.anomalyDays = some 0 ∧
    (performMachineLearningAnalysis c3Table).map MlResults.anomalyDays ≠ some 1 := by
  have h : (performMachineLearningAnalysis c3Table).map MlResults.anomalyDays =
      some (anomalyRows c3Table).length := rfl
  rw [h, c3Table_no_anomalies]
  exact ⟨rfl, by simp⟩

/-- The scenario's analysis payload. -/
def c3Ml : MlResults :=
  { totalDays := c3Table.length
    anomalyDays := (anomalyRows c3Table).length
    anomalyPct :=
      if 0 < c3Table.length then
        ((anomalyRows c3Table).length : ℚ) / (c3Table.length : ℚ) * 100
      else 0
    clusters := 1
    patterns := identifySimplePatterns c3Table
    recommendations := generateSimpleRecommendations c3Table }

/-- C3 witness: the amended rule applied to the scenario table. -/
theorem c3_two_sigma_rule_amended_witness :
    c3Ml.anomalyDays = (anomalyRows c3Table).length ∧
    c3Ml.anomalyPct = ((anomalyRows c3Table).length : ℚ) / (c3Table.length : ℚ) * 100 :=
  (c3_two_sigma_rule_amended c3Table).2.1 c3Ml rfl

/-- One day with 300 minutes of total sleep and nothing else. -/
def c8Table : List Row := [⟨0, some ⟨300, 0, 0, 0, 0⟩, none, none⟩]

/-- C8 witness: with mean total sleep 300 < 360 the increase-sleep rule
fires, and the resulting entry is among the five canonical entries. -/
theorem c8_recommendations_characterized_witness :
    Advice.increaseSleep (colMean (c8Table.map Row.totalSleepF)) ∈
      [Advice.increaseSleep (colMean (c8Table.map Row.totalSleepF)),
       Advice.excessiveSleep (colMean (c8Table.map Row.totalSleepF)),
       Advice.lowerHeartRate (colMean (c8Table.map Row.avgHeartRateF)),
       Advice.reduceFrequency (consCountMean c8Table), Advice.noSpecific] := by
  have h := c8_recommendations_characterized c8Table
  refine h.2.1 _ ?_
  refine (h.2.2.1).mpr ⟨rfl, ?_⟩
  norm_num [c8Table, colMean, Row.totalSleepF]

/-! ## Claim C5 -/

/-- Raw (pre-fill) column value, `none` when the cell is missing — i.e. the
row's domain never set the key, so the DataFrame holds NaN there before
`fillna(0)`.  The derived `sleep_efficiency` exists with its zero-guarded
formula wherever the sleep columns do; `hrv_proxy` is additionally missing
where the stored standard deviation was NaN (single-sample day). -/
noncomputable def metricRawValue : Metric → Row → Option ℝ
  | .totalSleepMin, r => r.sleep.map (fun a => ((a.total : ℚ) : ℝ))
  | .deepSleepMin, r => r.sleep.map (fun a => ((a.deep : ℚ) : ℝ))
  | .lightSleepMin, r => r.sleep.map (fun a => ((a.light : ℚ) : ℝ))
  | .remSleepMin, r => r.sleep.map (fun a => ((a.rem : ℚ) : ℝ))
  | .sleepEfficiency, r => r.sleep.map (fun _ => ((r.sleepEfficiencyF : ℚ) : ℝ))
  | .avgHeartRate, r => r.hr.map (fun a => ((a.avg : ℚ) : ℝ))
  | .hrvProxy, r => r.hr.bind (fun a => a.variance.map (fun v => Real.sqrt ((v : ℚ) : ℝ)))
  | .avgConsumptionRating, r => r.cons.map (fun a => ((a.avgRating : ℚ) : ℝ))
  | .totalDailyCost, r => r.cons.map (fun a => ((a.totalCost : ℚ) : ℝ))

/-- Modelled from the spec: "A metric is eligible only if it has more than
one distinct non-missing value across all rows."  Stated over the raw
(pre-fill) cells for comparison with the source's `eligibleMetric`. -/
def eligibleSpec (t : List Row) (m : Metric) : Prop :=
  ∃ r1 ∈ t, ∃ r2 ∈ t, ∃ a b,
    metricRawValue m r1 = some a ∧ metricRawValue m r2 = some b ∧ a ≠ b

/-- A heart-rate-only day followed by a sleep-only day: `avg_heart_rate` has
the single non-missing value 70 plus one missing cell. -/
def c5Table : List Row :=
  [⟨0, none, some ⟨70, 70, 70, none, 1⟩, none⟩,
   ⟨1, some ⟨300, 0, 0, 0, 0⟩, none, none⟩]

/-- C5 counterexample: `avg_heart_rate` is constant (70) over its non-missing
cells, so the claim excludes it, but the engine admits it: `fillna(0)` turned
the missing cell into a second distinct value 0. -/
theorem c5_counterexample :
    Metric.avgHeartRate ∈ numericColsOf c5Table ∧
    ¬ eligibleSpec c5Table Metric.avgHeartRate := by
  classical
  constructor
  · refine List.mem_filter.mpr ⟨by simp [candidateMetrics], decide_eq_true ?_⟩
    refine ⟨rfl, by simp [c5Table], ?_⟩
    refine ⟨⟨0, none, some ⟨70, 70, 70, none, 1⟩, none⟩, by simp [c5Table],
      ⟨1, some ⟨300, 0, 0, 0, 0⟩, none, none⟩, by simp [c5Table], ?_⟩
    simp only [metricValueR, Row.avgHeartRateF]
    norm_num
  · rintro ⟨r1, h1, r2, h2, a, b, ha, hb, hne⟩
    simp only [c5Table, List.mem_cons, List.not_mem_nil, or_false] at h1 h2
    rcases h1 with rfl | rfl <;> rcases h2 with rfl | rfl <;>
      simp only [metricRawValue, Option.map_some, Option.map_none] at ha hb
    · exact hne ((Option.some_inj.mp ha.symm).trans (Option.some_inj.mp hb))
    · exact Option.noConfusion hb
    · exact Option.noConfusion ha
    · exact Option.noConfusion ha

theorem metricValueR_zero_of_no_col (t : List Row) (m : Metric)
    (h : metricColExists t m = false) : ∀ r ∈ t, metricValueR m r = 0 := by
  intro r hr
  cases m <;>
    simp only [metricColExists, sleepColExists, hrColExists, consColExists,
      List.any_eq_false] at h <;>
    have hnone := h r hr
  case totalSleepMin =>
    simp only [metricValueR, Row.totalSleepF, Option.not_isSome_iff_eq_none.mp hnone]
    norm_num
  case deepSleepMin =>
    simp only [metricValueR, Row.deepSleepF, Option.not_isSome_iff_eq_none.mp hnone]
    norm_num
  case lightSleepMin =>
    simp only [metricValueR, Row.lightSleepF, Option.not_isSome_iff_eq_none.mp hnone]
    norm_num
  case remSleepMin =>
    simp only [metricValueR, Row.remSleepF, Option.not_isSome_iff_eq_none.mp hnone]
    norm_num
  case sleepEfficiency =>
    simp only [metricValueR, Row.sleepEfficiencyF, Row.totalSleepF, Row.wakeF,
      Option.not_isSome_iff_eq_none.mp hnone]
    norm_num
  case avgHeartRate =>
    simp only [metricValueR, Row.avgHeartRateF, Option.not_isSome_iff_eq_none.mp hnone]
    norm_num
  case hrvProxy =>
    simp only [metricValueR, Row.hrVarF, Option.not_isSome_iff_eq_none.mp hnone]
    norm_num
  case avgConsumptionRating =>
    simp only [metricValueR, Row.avgRatingF, Option.not_isSome_iff_eq_none.mp hnone]
    norm_num
  case totalDailyCost =>
    simp only [metricValueR, Row.totalCostF, Option.not_isSome_iff_eq_none.mp hnone]
    norm_num

/-- C5 amended: a metric participates in pairwise correlation iff its column
takes two distinct values across all rows *after* the `fillna(0)` step — so
a column constant over its non-missing cells still participates whenever a
nonzero constant meets at least one zero-filled missing cell. -/
theorem c5_eligibility_post_fill (t : List Row) (m : Metric) :
    m ∈ numericColsOf t ↔
      ∃ r1 ∈ t, ∃ r2 ∈ t, metricValueR m r1 ≠ metricValueR m r2 := by
  classical
  unfold numericColsOf
  rw [List.mem_filter]
  constructor
  · rintro ⟨_, hdec⟩
    exact (of_decide_eq_true hdec).2.2
  · rintro ⟨r1, h1, r2, h2, hne⟩
    refine ⟨by cases m <;> simp [candidateMetrics], decide_eq_true ?_⟩
    refine ⟨?_, List.ne_nil_of_mem h1, r1, h1, r2, h2, hne⟩
    by_contra hcol
    have hz := metricValueR_zero_of_no_col t m (Bool.not_eq_true _ ▸ Bool.of_not_eq_true hcol)
    exact hne ((hz r1 h1).trans (hz r2 h2).symm)

/-! ## Claim C2 -/

/-- Cauchy–Schwarz for list sums, by transport to `Finset.univ : Finset (Fin n)`. -/
theorem list_cauchy_schwarz {α : Type} (l : List α) (f g : α → ℝ) :
    ((l.map (fun a => f a * g a)).sum) ^ 2 ≤
      ((l.map (fun a => f a ^ 2)).sum) * ((l.map (fun a => g a ^ 2)).sum) := by
  have key : ∀ (h : α → ℝ), (l.map h).sum = ∑ i : Fin l.length, h (l.get i) := by
    intro h
    rw [← List.ofFn_getElem_eq_map l h, List.sum_ofFn]
    rfl
  rw [key, key, key]
  exact Finset.sum_mul_sq_le_sq_mul_sq Finset.univ _ _

theorem devSqFst_nonneg (ps : List (ℝ × ℝ)) : 0 ≤ devSqFst ps := by
  refine List.sum_nonneg ?_
  intro y hy
  obtain ⟨p, _, rfl⟩ := List.mem_map.mp hy
  exact sq_nonneg _

theorem devSqSnd_nonneg (ps : List (ℝ × ℝ)) : 0 ≤ devSqSnd ps := by
  refine List.sum_nonneg ?_
  intro y hy
  obtain ⟨p, _, rfl⟩ := List.mem_map.mp hy
  exact sq_nonneg _

/-- The Pearson coefficient of a sample with two nonzero deviation sums lies
in [-1, 1]. -/
theorem pearson_abs_le_one (ps : List (ℝ × ℝ)) (h : ¬ pearsonUndef ps) :
    |pearson ps| ≤ 1 := by
  unfold pearsonUndef at h
  push_neg at h
  have hpos1 : 0 < devSqFst ps := lt_of_le_of_ne (devSqFst_nonneg ps) (Ne.symm h.1)
  have hpos2 : 0 < devSqSnd ps := lt_of_le_of_ne (devSqSnd_nonneg ps) (Ne.symm h.2)
  have hprod : 0 < devSqFst ps * devSqSnd ps := mul_pos hpos1 hpos2
  have hcs : (devProdSum ps) ^ 2 ≤ devSqFst ps * devSqSnd ps :=
    list_cauchy_schwarz ps (fun p => p.1 - meanR (ps.map Prod.fst))
      (fun p => p.2 - meanR (ps.map Prod.snd))
  have hsqrtpos : 0 < Real.sqrt (devSqFst ps * devSqSnd ps) := Real.sqrt_pos.mpr hprod
  unfold pearson
  rw [abs_div, abs_of_nonneg (Real.sqrt_nonneg _), div_le_one hsqrtpos,
    ← Real.sqrt_sq_eq_abs]
  exact Real.sqrt_le_sqrt hcs

/-- Elimination principle for a membership in the correlation output. -/
theorem corrRecords_mem_elim {t : List Row} {rec : CorrRecord}
    (h : rec ∈ corrRecords t) :
    ∃ pq ∈ pairsOf (numericColsOf t),
      rec = ⟨pq.1, pq.2, pearson (colPairs t pq.1 pq.2), (colPairs t pq.1 pq.2).length⟩ ∧
      3 ≤ (colPairs t pq.1 pq.2).length ∧
      ¬ pearsonUndef (colPairs t pq.1 pq.2) ∧
      3 / 10 < |pearson (colPairs t pq.1 pq.2)| := by
  classical
  obtain ⟨pq, hpq, hf⟩ := List.mem_filterMap.mp h
  simp only [corrRecordOf] at hf
  by_cases h3 : 3 ≤ (colPairs t pq.1 pq.2).length
  · rw [if_pos h3] at hf
    by_cases hkeep : ¬ pearsonUndef (colPairs t pq.1 pq.2) ∧
        3 / 10 < |pearson (colPairs t pq.1 pq.2)|
    · rw [if_pos hkeep] at hf
      exact ⟨pq, hpq, (Option.some_inj.mp hf).symm, h3, hkeep.1, hkeep.2⟩
    · rw [if_neg hkeep] at hf
      exact Option.noConfusion hf
  · rw [if_neg h3] at hf
    exact Option.noConfusion hf

theorem mem_pairsOf_mem {α : Type} {l : List α} {p : α × α} (h : p ∈ pairsOf l) :
    p.1 ∈ l ∧ p.2 ∈ l := by
  induction l with
  | nil => exact absurd h (List.not_mem_nil p)
  | cons a rest ih =>
    rcases List.mem_append.mp h with h | h
    · obtain ⟨b, hb, rfl⟩ := List.mem_map.mp h
      exact ⟨List.mem_cons_self a rest, List.mem_cons_of_mem a hb⟩
    · obtain ⟨h1, h2⟩ := ih h
      exact ⟨List.mem_cons_of_mem a h1, List.mem_cons_of_mem a h2⟩

theorem mem_pairsOf_ne {α : Type} {l : List α} (hnd : l.Nodup) :
    ∀ p ∈ pairsOf l, p.1 ≠ p.2 := by
  induction l with
  | nil => intro p hp; exact absurd hp (List.not_mem_nil p)
  | cons a rest ih =>
    intro p hp
    rcases List.mem_append.mp hp with h | h
    · obtain ⟨b, hb, rfl⟩ := List.mem_map.mp h
      intro hab
      have hab2 : a = b := hab
      exact (List.nodup_cons.mp hnd).1 (by rw [hab2]; exact hb)
    · exact ih (List.nodup_cons.mp hnd).2 p h

theorem pairsOf_pairwise_distinct {α : Type} {l : List α} (hnd : l.Nodup) :
    (pairsOf l).Pairwise (fun p q =>
      ¬ (p.1 = q.1 ∧ p.2 = q.2) ∧ ¬ (p.1 = q.2 ∧ p.2 = q.1)) := by
  induction l with
  | nil => exact List.Pairwise.nil
  | cons a rest ih =>
    obtain ⟨hna, hrest⟩ := List.nodup_cons.mp hnd
    refine List.pairwise_append.mpr ⟨?_, ih hrest, ?_⟩
    · rw [List.pairwise_map]
      refine hrest.imp_of_mem ?_
      intro b1 b2 hb1 hb2 hne
      constructor
      · rintro ⟨_, h2⟩
        exact hne h2
      · rintro ⟨h1, _⟩
        have h1b : a = b2 := h1
        exact hna (by rw [h1b]; exact hb2)
    · intro p hp q hq
      obtain ⟨b, hb, rfl⟩ := List.mem_map.mp hp
      obtain ⟨hq1, hq2⟩ := mem_pairsOf_mem hq
      constructor
      · rintro ⟨h1, _⟩
        have h1b : a = q.1 := h1
        exact hna (by rw [h1b]; exact hq1)
      · rintro ⟨h1, _⟩
        have h1b : a = q.2 := h1
        exact hna (by rw [h1b]; exact hq2)
theorem candidateMetrics_nodup : candidateMetrics.Nodup := by decide

theorem numericColsOf_nodup (t : List Row) : (numericColsOf t).Nodup := by
  classical
  exact candidateMetrics_nodup.filter _

theorem corrRecordOf_eq_some {t : List Row} {m1 m2 : Metric} {rec : CorrRecord}
    (h : corrRecordOf t m1 m2 = some rec) : rec.m1 = m1 ∧ rec.m2 = m2 := by
  classical
  simp only [corrRecordOf] at h
  by_cases h3 : 3 ≤ (colPairs t m1 m2).length
  · rw [if_pos h3] at h
    by_cases hkeep : ¬ pearsonUndef (colPairs t m1 m2) ∧
        3 / 10 < |pearson (colPairs t m1 m2)|
    · rw [if_pos hkeep] at h
      rw [← Option.some_inj.mp h]
      exact ⟨rfl, rfl⟩
    · rw [if_neg hkeep] at h
      exact Option.noConfusion h
  · rw [if_neg h3] at h
    exact Option.noConfusion h

/-- C2: every retained correlation record has a coefficient in [-1, 1]
(Cauchy–Schwarz on the exact sums), sample size at least 3 (equal to the
number of paired rows), and absolute coefficient strictly above 0.3; a pair
with an undefined (NaN) coefficient or fewer than 3 paired rows yields no
record at all; and no unordered metric pair appears twice. -/
theorem c2_correlation_records_sound (t : List Row) :
    (∀ rec ∈ corrRecords t,
      -1 ≤ rec.corr ∧ rec.corr ≤ 1 ∧ 3 ≤ rec.n ∧ 3 / 10 < |rec.corr| ∧
      rec.n = (colPairs t rec.m1 rec.m2).length ∧
      ¬ pearsonUndef (colPairs t rec.m1 rec.m2) ∧ rec.m1 ≠ rec.m2) ∧
    (∀ m1 m2 : Metric,
      ((colPairs t m1 m2).length < 3 ∨ pearsonUndef (colPairs t m1 m2)) →
      ∀ rec ∈ corrRecords t, ¬ (rec.m1 = m1 ∧ rec.m2 = m2)) ∧
    (corrRecords t).Pairwise (fun a b =>
      ¬ (a.m1 = b.m1 ∧ a.m2 = b.m2) ∧ ¬ (a.m1 = b.m2 ∧ a.m2 = b.m1)) := by
  have hmain : ∀ rec ∈ corrRecords t,
      -1 ≤ rec.corr ∧ rec.corr ≤ 1 ∧ 3 ≤ rec.n ∧ 3 / 10 < |rec.corr| ∧
      rec.n = (colPairs t rec.m1 rec.m2).length ∧
      ¬ pearsonUndef (colPairs t rec.m1 rec.m2) ∧ rec.m1 ≠ rec.m2 := by
    intro rec hrec
    obtain ⟨pq, hpq, hrec2, h3, hundef, habs⟩ := corrRecords_mem_elim hrec
    have hne : pq.1 ≠ pq.2 := mem_pairsOf_ne (numericColsOf_nodup t) pq hpq
    subst hrec2
    have hb := abs_le.mp (pearson_abs_le_one _ hundef)
    exact ⟨hb.1, hb.2, h3, habs, rfl, hundef, hne⟩
  refine ⟨hmain, ?_, ?_⟩
  · intro m1 m2 hbad rec hrec he
    obtain ⟨_, _, h3a, _, hn, hundef, _⟩ := hmain rec hrec
    rw [he.1, he.2] at hn hundef
    rcases hbad with hbad | hbad
    · rw [hn] at h3a
      exact absurd hbad (not_lt.mpr h3a)
    · exact hundef hbad
  · refine List.Pairwise.filterMap _ ?_ (pairsOf_pairwise_distinct (numericColsOf_nodup t))
    intro pq qr hR rec hrec rec2 hrec2
    obtain ⟨h11, h12⟩ := corrRecordOf_eq_some (Option.mem_def.mp hrec)
    obtain ⟨h21, h22⟩ := corrRecordOf_eq_some (Option.mem_def.mp hrec2)
    rw [h11, h12, h21, h22]
    exact hR


/-- Three sleep-only days with perfectly correlated total and deep sleep. -/
def c2Table : List Row :=
  [⟨0, some ⟨100, 10, 0, 0, 0⟩, none, none⟩,
   ⟨1, some ⟨200, 20, 0, 0, 0⟩, none, none⟩,
   ⟨2, some ⟨300, 30, 0, 0, 0⟩, none, none⟩]

/-- The record the engine retains on `c2Table`. -/
noncomputable def c2Rec : CorrRecord := ⟨.totalSleepMin, .deepSleepMin, 1, 3⟩

theorem c2_elig_total : eligibleMetric c2Table Metric.totalSleepMin := by
  refine ⟨rfl, by simp [c2Table], ?_⟩
  refine ⟨⟨0, some ⟨100, 10, 0, 0, 0⟩, none, none⟩, by simp [c2Table],
    ⟨1, some ⟨200, 20, 0, 0, 0⟩, none, none⟩, by simp [c2Table], ?_⟩
  norm_num [metricValueR, Row.totalSleepF]

theorem c2_elig_deep : eligibleMetric c2Table Metric.deepSleepMin := by
  refine ⟨rfl, by simp [c2Table], ?_⟩
  refine ⟨⟨0, some ⟨100, 10, 0, 0, 0⟩, none, none⟩, by simp [c2Table],
    ⟨1, some ⟨200, 20, 0, 0, 0⟩, none, none⟩, by simp [c2Table], ?_⟩
  norm_num [metricValueR, Row.deepSleepF]

theorem c2_inelig_light : ¬ eligibleMetric c2Table Metric.lightSleepMin := by
  rintro ⟨_, _, r1, h1, r2, h2, hne⟩
  simp only [c2Table, List.mem_cons, List.not_mem_nil, or_false] at h1 h2
  rcases h1 with rfl | rfl | rfl <;> rcases h2 with rfl | rfl | rfl <;> exact hne rfl

theorem c2_inelig_rem : ¬ eligibleMetric c2Table Metric.remSleepMin := by
  rintro ⟨_, _, r1, h1, r2, h2, hne⟩
  simp only [c2Table, List.mem_cons, List.not_mem_nil, or_false] at h1 h2
  rcases h1 with rfl | rfl | rfl <;> rcases h2 with rfl | rfl | rfl <;> exact hne rfl

theorem c2_inelig_eff : ¬ eligibleMetric c2Table Metric.sleepEfficiency := by
  rintro ⟨_, _, r1, h1, r2, h2, hne⟩
  simp only [c2Table, List.mem_cons, List.not_mem_nil, or_false] at h1 h2
  rcases h1 with rfl | rfl | rfl <;> rcases h2 with rfl | rfl | rfl <;>
    exact hne (by norm_num [metricValueR, Row.sleepEfficiencyF, Row.totalSleepF, Row.wakeF])

theorem c2_inelig_hr : ¬ eligibleMetric c2Table Metric.avgHeartRate := by
  rintro ⟨habs, _⟩
  exact absurd habs (by decide)

theorem c2_inelig_hrv : ¬ eligibleMetric c2Table Metric.hrvProxy := by
  rintro ⟨habs, _⟩
  exact absurd habs (by decide)

theorem c2_inelig_rating : ¬ eligibleMetric c2Table Metric.avgConsumptionRating := by
  rintro ⟨habs, _⟩
  exact absurd habs (by decide)

theorem c2_inelig_cost : ¬ eligibleMetric c2Table Metric.totalDailyCost := by
  rintro ⟨habs, _⟩
  exact absurd habs (by decide)

theorem c2_numericCols :
    numericColsOf c2Table = [Metric.totalSleepMin, Metric.deepSleepMin] := by
  classical
  unfold numericColsOf candidateMetrics
  simp only [List.filter_cons, List.filter_nil, decide_eq_true_eq]
  rw [if_pos c2_elig_total, if_pos c2_elig_deep, if_neg c2_inelig_light,
    if_neg c2_inelig_rem, if_neg c2_inelig_eff, if_neg c2_inelig_hr,
    if_neg c2_inelig_hrv, if_neg c2_inelig_rating, if_neg c2_inelig_cost]

theorem c2_colPairs :
    colPairs c2Table Metric.totalSleepMin Metric.deepSleepMin =
      [(((100 : ℚ) : ℝ), ((10 : ℚ) : ℝ)), (((200 : ℚ) : ℝ), ((20 : ℚ) : ℝ)),
       (((300 : ℚ) : ℝ), ((30 : ℚ) : ℝ))] := rfl

theorem c2_stats :
    devProdSum (colPairs c2Table Metric.totalSleepMin Metric.deepSleepMin) = 2000 ∧
    devSqFst (colPairs c2Table Metric.totalSleepMin Metric.deepSleepMin) = 20000 ∧
    devSqSnd (colPairs c2Table Metric.totalSleepMin Metric.deepSleepMin) = 200 := by
  rw [c2_colPairs]
  refine ⟨?_, ?_, ?_⟩ <;> norm_num [devProdSum, devSqFst, devSqSnd, meanR]

theorem c2_pearson :
    pearson (colPairs c2Table Metric.totalSleepMin Metric.deepSleepMin) = 1 := by
  unfold pearson
  rw [c2_stats.1, c2_stats.2.1, c2_stats.2.2,
    show (20000 : ℝ) * 200 = 2000 ^ 2 by norm_num,
    Real.sqrt_sq (by norm_num : (0 : ℝ) ≤ 2000)]
  norm_num

theorem c2_record :
    corrRecordOf c2Table Metric.totalSleepMin Metric.deepSleepMin = some c2Rec := by
  classical
  simp only [corrRecordOf]
  rw [if_pos (show
      3 ≤ (colPairs c2Table Metric.totalSleepMin Metric.deepSleepMin).length from
      le_refl 3)]
  rw [if_pos ?keep]
  case keep =>
    constructor
    · unfold pearsonUndef
      rw [c2_stats.2.1, c2_stats.2.2]
      norm_num
    · rw [c2_pearson]
      norm_num
  rw [c2_pearson]
  rfl

theorem c2_record_mem : c2Rec ∈ corrRecords c2Table := by
  classical
  unfold corrRecords
  rw [c2_numericCols]
  simp only [pairsOf, List.map_cons, List.map_nil, List.nil_append, List.append_nil,
    List.filterMap_cons]
  rw [show corrRecordOf c2Table Metric.totalSleepMin Metric.deepSleepMin = some c2Rec
    from c2_record]
  exact List.mem_singleton.mpr rfl

/-- C2 witness: the soundness facts instantiated on the retained record of
the concrete three-day table. -/
theorem c2_correlation_records_sound_witness :
    c2Rec ∈ corrRecords c2Table ∧
    (-1 ≤ c2Rec.corr ∧ c2Rec.corr ≤ 1 ∧ 3 ≤ c2Rec.n ∧ 3 / 10 < |c2Rec.corr| ∧
      c2Rec.n = (colPairs c2Table c2Rec.m1 c2Rec.m2).length ∧
      ¬ pearsonUndef (colPairs c2Table c2Rec.m1 c2Rec.m2) ∧ c2Rec.m1 ≠ c2Rec.m2) :=
  ⟨c2_record_mem, (c2_correlation_records_sound c2Table).1 c2Rec c2_record_mem⟩


/-! ## Claim C9 -/

theorem opt_refresh_none {α : Type} (o : Option α) : o.elim none some = o := by
  cases o <;> rfl

theorem opt_refresh_self {α : Type} (o : Option α) : o.elim o some = o := by
  cases o <;> rfl

theorem loadConsumptionData_fst (st : AnalyzerState) (e : List RawEntry) :
    (loadConsumptionData st e).1 =
      { st with consumptionData := (consComputed e).elim st.consumptionData some } := by
  unfold loadConsumptionData
  cases consComputed e <;> rfl

theorem loadConsumptionData_snd (st : AnalyzerState) (e : List RawEntry) :
    (loadConsumptionData st e).2 = consComputed e := by
  unfold loadConsumptionData
  cases consComputed e <;> rfl

theorem loadHealthData_eq (st : AnalyzerState) (h : List RawHealth) :
    loadHealthData st h =
      { st with sleepData := (sleepComputed h).elim st.sleepData some,
                heartRateData := (hrComputed h).elim st.heartRateData some } := by
  unfold loadHealthData
  cases sleepComputed h <;> cases hrComputed h <;> rfl

theorem combineDataStep_fst (st : AnalyzerState) :
    (combineDataStep st).1 =
      { st with combinedData := (combineComputed st).elim st.combinedData some } := by
  unfold combineDataStep
  cases combineComputed st <;> rfl

theorem combineDataStep_snd (st : AnalyzerState) :
    (combineDataStep st).2 = combineComputed st := by
  unfold combineDataStep
  cases combineComputed st <;> rfl

theorem combineComputed_congr {s1 s2 : AnalyzerState}
    (h1 : s1.sleepData = s2.sleepData) (h2 : s1.heartRateData = s2.heartRateData)
    (h3 : s1.consumptionData = s2.consumptionData) :
    combineComputed s1 = combineComputed s2 := by
  unfold combineComputed
  rw [h1, h2, h3]

theorem corrStep_fst_fields (st : AnalyzerState) :
    (corrStep st).1.sleepData = st.sleepData ∧
    (corrStep st).1.heartRateData = st.heartRateData ∧
    (corrStep st).1.consumptionData = st.consumptionData ∧
    (corrStep st).1.combinedData = st.combinedData := by
  rcases h : st.combinedData with _ | t
  · simp [corrStep, h]
  · by_cases he : t.isEmpty <;> simp [corrStep, h, he]

theorem corrStep_snd_congr {s1 s2 : AnalyzerState}
    (h : s1.combinedData = s2.combinedData) : (corrStep s1).2 = (corrStep s2).2 := by
  rcases hc : s2.combinedData with _ | t
  · simp [corrStep, hc, h.trans hc]
  · by_cases he : t.isEmpty <;> simp [corrStep, hc, h.trans hc, he]

theorem mlStep_congr {s1 s2 : AnalyzerState}
    (h : s1.combinedData = s2.combinedData) : mlStep s1 = mlStep s2 := by
  unfold mlStep
  rw [h]

theorem runPipeline_fst (st : AnalyzerState) (e : List RawEntry) (h : List RawHealth) :
    (runPipeline st e h).1 =
      (corrStep (combineDataStep (loadHealthData (loadConsumptionData st e).1 h)).1).1 :=
  rfl

theorem runPipeline_snd (st : AnalyzerState) (e : List RawEntry) (h : List RawHealth) :
    (runPipeline st e h).2 =
      ⟨(loadConsumptionData st e).2,
       (combineDataStep (loadHealthData (loadConsumptionData st e).1 h)).2,
       (corrStep (combineDataStep (loadHealthData (loadConsumptionData st e).1 h)).1).2,
       mlStep (corrStep (combineDataStep (loadHealthData (loadConsumptionData st e).1 h)).1).1⟩ :=
  rfl

/-- Data slots of the state after the two load stages, as refresh-or-keep
updates of the incoming state. -/
theorem loads_data_fields (st : AnalyzerState) (e : List RawEntry) (h : List RawHealth) :
    (loadHealthData (loadConsumptionData st e).1 h).sleepData =
      (sleepComputed h).elim st.sleepData some ∧
    (loadHealthData (loadConsumptionData st e).1 h).heartRateData =
      (hrComputed h).elim st.heartRateData some ∧
    (loadHealthData (loadConsumptionData st e).1 h).consumptionData =
      (consComputed e).elim st.consumptionData some ∧
    (loadHealthData (loadConsumptionData st e).1 h).combinedData = st.combinedData := by
  rw [loadHealthData_eq, loadConsumptionData_fst]
  exact ⟨rfl, rfl, rfl, rfl⟩

/-- C9: re-running the whole core pipeline on identical inputs from the
state the first run left behind produces identical outputs.  Every stage
either stores a freshly recomputed value or keeps the stored one; with
identical inputs the recomputed values coincide, and no stage reads
anything but the inputs and the data slots, so the second run repeats the
first.  (No randomness exists in any of the five stages.) -/
theorem c9_pipeline_idempotent (entries : List RawEntry) (health : List RawHealth) :
    (runPipeline (runPipeline initState entries health).1 entries health).2 =
      (runPipeline initState entries health).2 := by
  -- First-run states.
  obtain ⟨h1s, h1h, h1c, h1b⟩ := loads_data_fields initState entries health
  rw [show initState.sleepData = none from rfl, opt_refresh_none] at h1s
  rw [show initState.heartRateData = none from rfl, opt_refresh_none] at h1h
  rw [show initState.consumptionData = none from rfl, opt_refresh_none] at h1c
  rw [show initState.combinedData = none from rfl] at h1b
  set st2 := loadHealthData (loadConsumptionData initState entries).1 health with hst2
  set st3 := (combineDataStep st2).1 with hst3
  set st4 := (corrStep st3).1 with hst4
  obtain ⟨h4s, h4h, h4c, h4b⟩ := corrStep_fst_fields st3
  rw [← hst4] at h4s h4h h4c h4b
  have h3fields : st3.sleepData = st2.sleepData ∧ st3.heartRateData = st2.heartRateData ∧
      st3.consumptionData = st2.consumptionData ∧
      st3.combinedData = (combineComputed st2).elim st2.combinedData some := by
    rw [hst3, combineDataStep_fst]
    exact ⟨rfl, rfl, rfl, rfl⟩
  -- Second-run states.
  obtain ⟨g1s, g1h, g1c, g1b⟩ := loads_data_fields st4 entries health
  set su2 := loadHealthData (loadConsumptionData st4 entries).1 health with hsu2
  set su3 := (combineDataStep su2).1 with hsu3
  -- The data slots after the second run's loads equal those after the first's.
  have heqs : su2.sleepData = st2.sleepData := by
    rw [g1s, h4s, h3fields.1, h1s, opt_refresh_self]
  have heqh : su2.heartRateData = st2.heartRateData := by
    rw [g1h, h4h, h3fields.2.1, h1h, opt_refresh_self]
  have heqc : su2.consumptionData = st2.consumptionData := by
    rw [g1c, h4c, h3fields.2.2.1, h1c, opt_refresh_self]
  have hcc : combineComputed su2 = combineComputed st2 :=
    combineComputed_congr heqs heqh heqc
  -- The combined slot after the second run's combine equals the first's.
  have hcombined : su3.combinedData = st3.combinedData := by
    rw [hsu3, combineDataStep_fst]
    show (combineComputed su2).elim su2.combinedData some = st3.combinedData
    rw [hcc, g1b, h4b, h3fields.2.2.2, h1b]
    cases combineComputed st2 <;> rfl
  -- Assemble the four output components.
  rw [runPipeline_snd, runPipeline_snd, runPipeline_fst, ← hst2, ← hst3, ← hst4,
    ← hsu2, ← hsu3]
  have hA : (loadConsumptionData st4 entries).2 =
      (loadConsumptionData initState entries).2 := by
    rw [loadConsumptionData_snd, loadConsumptionData_snd]
  have hB : (combineDataStep su2).2 = (combineDataStep st2).2 := by
    rw [combineDataStep_snd, combineDataStep_snd]
    exact hcc
  have hC : (corrStep su3).2 = (corrStep st3).2 := corrStep_snd_congr hcombined
  have hD : mlStep (corrStep su3).1 = mlStep (corrStep st3).1 :=
    mlStep_congr (((corrStep_fst_fields su3).2.2.2).trans
      (hcombined.trans ((corrStep_fst_fields st3).2.2.2).symm))
  rw [hA, hB, hC, hD]

end Substanz
